import Mathlib

/-!
Verification of the tiny-lang interpreter (lexer, recursive-descent parser,
tree-walking evaluator) against its natural-language specification.

The Go sources are embedded shallowly:

* `lexer/token.go`, `lexer/lexer.go` — `TokenType`, `Token`, `Lexer`,
  `Lexer.nextToken`, `tokenizeF` below.  Go strings are modelled as `List Char`
  (the sources are ASCII); the `(input, position)` pair of the Go lexer is
  represented by the remaining suffix of the input, which is the same data.
  The unbounded `for` loop of `Tokenize` gets an explicit fuel parameter; fuel
  exhaustion is a distinguished result, never confused with a lexer error.
* `parser/parser.go` — a total, mutually recursive descent parser.  Positions
  into the token list carry the proof that each parsing function consumes
  input, which makes the recursion well-founded exactly as in the Go code.
* `parser/ast.go`, `parser/environment.go` — values, environments and the
  evaluator.  Go's `float64` is modelled as `ℚ` (every number appearing in the
  verified programs is exactly representable, and the division-by-zero test is
  exact in both models).  Go mutates environments and array backing stores in
  place through pointers; the embedding makes the store explicit: a list of
  frames addressed by index (a frame's parent is an index of an earlier frame)
  and a list of array backing stores addressed by index.  The evaluator takes
  fuel because tiny-lang programs can diverge; errors carry the state at the
  moment they were raised, since Go's in-place mutations survive an error.
-/

set_option maxHeartbeats 4000000

namespace TinyLang

/-! ## lexer/token.go -/

/-- `TokenType` from lexer/token.go: `EOFToken TokenType = iota`, so the Go
zero value of `TokenType` is `EOFToken`.  `VoidToken` is referenced by
`lexer.go` (keyword `void`) and closes the enumeration. -/
inductive TokenType where
  | EOFToken
  | LetToken
  | IdentToken
  | NumberToken
  | ColonToken
  | AssignToken
  | DeclareToken
  | PlusToken
  | MinusToken
  | MultiplyToken
  | DivideToken
  | LeftParenToken
  | RightParenToken
  | IfToken
  | ElseToken
  | LeftBraceToken
  | RightBraceToken
  | EqualToken
  | NotEqualToken
  | GTToken
  | LTToken
  | GEQToken
  | LEQToken
  | WhileToken
  | TrueToken
  | FalseToken
  | OrToken
  | AndToken
  | NotToken
  | StringToken
  | LeftBracketToken
  | RightBracketToken
  | CommaToken
  | FunctionToken
  | ReturnToken
  | VoidToken
  deriving DecidableEq, Repr

/-- `TokenType.String()` from lexer/token.go. -/
def TokenType.goString : TokenType → String
  | .LetToken => "LET"
  | .IdentToken => "IDENT"
  | .NumberToken => "NUMBER"
  | .ColonToken => ":"
  | .AssignToken => "="
  | .DeclareToken => ":="
  | .PlusToken => "+"
  | .MinusToken => "-"
  | .MultiplyToken => "*"
  | .DivideToken => "/"
  | .LeftParenToken => "("
  | .RightParenToken => ")"
  | .IfToken => "IF"
  | .ElseToken => "ELSE"
  | .LeftBraceToken => "\x7b"
  | .RightBraceToken => "\x7d"
  | .EqualToken => "=="
  | .NotEqualToken => "!="
  | .GTToken => ">"
  | .LTToken => "<"
  | .GEQToken => ">="
  | .LEQToken => "<="
  | .EOFToken => "EOF"
  | .WhileToken => "WHILE"
  | .TrueToken => "TRUE"
  | .FalseToken => "FALSE"
  | .OrToken => "||"
  | .AndToken => "&&"
  | .NotToken => "!"
  | .StringToken => "STRING"
  | .LeftBracketToken => "["
  | .RightBracketToken => "]"
  | .CommaToken => ","
  | .FunctionToken => "FUNCTION"
  | .ReturnToken => "RETURN"
  | .VoidToken => "UNKNOWN"

/-- `Token` from lexer/token.go: kind, literal text and source position. -/
structure Token where
  type : TokenType
  literal : String
  column : Nat
  line : Nat
  deriving DecidableEq, Repr

/-- The Go zero value `Token{}`: every error return of `NextToken` produces
it.  Its `type` is `EOFToken` because `EOFToken = iota = 0`. -/
def zeroToken : Token := ⟨.EOFToken, "", 0, 0⟩

/-! ## lexer/lexer.go -/

/-- `LexerError` from lexer/lexer.go. -/
structure LexerError where
  msg : String
  line : Nat
  column : Nat
  deriving DecidableEq, Repr

/-- The `Lexer` state.  Go keeps `(input, position)`; the embedding keeps the
remaining suffix `input[position:]`, which the Go code alone inspects. -/
structure Lexer where
  remaining : List Char
  line : Nat
  column : Nat
  deriving DecidableEq, Repr

/-- `New` from lexer/lexer.go: position 0, line 1, column 1. -/
def LexerNew (input : String) : Lexer := ⟨input.data, 1, 1⟩

/-- `unicode.IsSpace` restricted to the ASCII range the byte-oriented Go
lexer actually reads. -/
def goIsSpace (c : Char) : Bool :=
  c = ' ' || c = '\t' || c = '\n' || c = '\x0b' || c = '\x0c' || c = '\r'

/-- `unicode.IsLetter` on ASCII bytes. -/
def goIsLetter (c : Char) : Bool := c.isAlpha

/-- `unicode.IsDigit` on ASCII bytes. -/
def goIsDigit (c : Char) : Bool := c.isDigit

/-- `Lexer.peek`: Go returns the rune 0 both at end of input and on a NUL
byte; the model returns the character `'\x00'` at end of input likewise. -/
def Lexer.peek (l : Lexer) : Char :=
  match l.remaining with
  | [] => '\x00'
  | c :: _ => c

/-- Line/column bookkeeping of `Lexer.next`. -/
def advancePos (c : Char) (line column : Nat) : Nat × Nat :=
  if c = '\n' then (line + 1, 1) else (line, column + 1)

/-- `Lexer.next`: consume one character, updating line and column. -/
def Lexer.next (l : Lexer) : Lexer :=
  match l.remaining with
  | [] => l
  | c :: rest =>
    let (line, column) := advancePos c l.line l.column
    ⟨rest, line, column⟩

/-- The loop of `Lexer.skipWhitespace`, structurally on the remaining input. -/
def skipWhitespaceAux : List Char → Nat → Nat → Lexer
  | [], line, column => ⟨[], line, column⟩
  | c :: rest, line, column =>
    if goIsSpace c then
      let (line, column) := advancePos c line column
      skipWhitespaceAux rest line column
    else ⟨c :: rest, line, column⟩

/-- `Lexer.skipWhitespace`. -/
def Lexer.skipWhitespace (l : Lexer) : Lexer :=
  skipWhitespaceAux l.remaining l.line l.column

/-- The scanning loop shared by `readLiteral` and `readNumber`: take
characters while `p` holds, returning the consumed prefix and the rest. -/
def takeWhileAux (p : Char → Bool) : List Char → Nat → Nat → List Char × Lexer
  | [], line, column => ([], ⟨[], line, column⟩)
  | c :: rest, line, column =>
    if p c then
      let (line', column') := advancePos c line column
      let (taken, l') := takeWhileAux p rest line' column'
      (c :: taken, l')
    else ([], ⟨c :: rest, line, column⟩)

/-- `Lexer.readLiteral`: identifier characters after skipping whitespace. -/
def Lexer.readLiteral (l : Lexer) : String × Lexer :=
  let l1 := l.skipWhitespace
  let (cs, l2) :=
    takeWhileAux (fun c => goIsLetter c || goIsDigit c || c = '_')
      l1.remaining l1.line l1.column
  (String.mk cs, l2)

/-- `Lexer.readNumber`: digits, an optional decimal point, more digits. -/
def Lexer.readNumber (l : Lexer) : String × Lexer :=
  let l1 := l.skipWhitespace
  let (ip, l2) := takeWhileAux goIsDigit l1.remaining l1.line l1.column
  if l2.peek = '.' then
    let l3 := l2.next
    let (fp, l4) := takeWhileAux goIsDigit l3.remaining l3.line l3.column
    (String.mk (ip ++ ['.'] ++ fp), l4)
  else (String.mk ip, l2)

/-- The string-literal scan of `NextToken`: consume until a closing quote or
a 0 rune (NUL byte or end of input), exactly as the Go loop
`for l.peek() != '"' && l.peek() != 0`. -/
def scanStringAux : List Char → Nat → Nat → List Char × Lexer
  | [], line, column => ([], ⟨[], line, column⟩)
  | c :: rest, line, column =>
    if c = '"' || c = '\x00' then ([], ⟨c :: rest, line, column⟩)
    else
      let (line', column') := advancePos c line column
      let (taken, l') := scanStringAux rest line' column'
      (c :: taken, l')

/-- `Lexer.newToken`: literal text is the canonical `TokenType.String()`,
position is the lexer's position after the token was consumed. -/
def Lexer.newToken (l : Lexer) (t : TokenType) : Token :=
  ⟨t, t.goString, l.column, l.line⟩

/-- `Lexer.newTokenLiteral`. -/
def Lexer.newTokenLiteral (l : Lexer) (t : TokenType) (lit : String) : Token :=
  ⟨t, lit, l.column, l.line⟩

/-- `Lexer.error`: a `LexerError` at the current position. -/
def Lexer.mkError (l : Lexer) (msg : String) : LexerError :=
  ⟨msg, l.line, l.column⟩

/-- The keyword table of `NextToken`. -/
def keywordToken (l : Lexer) (lit : String) : Token :=
  if lit = "let" then l.newToken .LetToken
  else if lit = "if" then l.newToken .IfToken
  else if lit = "else" then l.newToken .ElseToken
  else if lit = "while" then l.newToken .WhileToken
  else if lit = "true" then l.newToken .TrueToken
  else if lit = "false" then l.newToken .FalseToken
  else if lit = "func" then l.newToken .FunctionToken
  else if lit = "return" then l.newToken .ReturnToken
  else if lit = "void" then l.newToken .VoidToken
  else l.newTokenLiteral .IdentToken lit

/-- `Lexer.NextToken` from lexer/lexer.go.  Mirrors the Go signature
`(Token, error)` as a triple with the successor lexer state: each Go error
return is `(Token{}, err)`, i.e. `(zeroToken, some e, l')` here. -/
def Lexer.nextToken (l : Lexer) : Token × Option LexerError × Lexer :=
  let l0 := l.skipWhitespace
  match l0.remaining with
  | [] => (zeroToken, none, l0)
  | c :: _ =>
    if c = '=' then
      let l1 := l0.next
      if l1.peek = '=' then (l1.next.newToken .EqualToken, none, l1.next)
      else (l1.newToken .AssignToken, none, l1)
    else if c = ':' then
      let l1 := l0.next
      if l1.peek ≠ '=' then (l1.newToken .ColonToken, none, l1)
      else (l1.next.newToken .DeclareToken, none, l1.next)
    else if c = '+' then (l0.next.newToken .PlusToken, none, l0.next)
    else if c = '-' then (l0.next.newToken .MinusToken, none, l0.next)
    else if c = '*' then (l0.next.newToken .MultiplyToken, none, l0.next)
    else if c = '/' then (l0.next.newToken .DivideToken, none, l0.next)
    else if c = '(' then (l0.next.newToken .LeftParenToken, none, l0.next)
    else if c = ')' then (l0.next.newToken .RightParenToken, none, l0.next)
    else if c = '{' then (l0.next.newToken .LeftBraceToken, none, l0.next)
    else if c = '}' then (l0.next.newToken .RightBraceToken, none, l0.next)
    else if c = '<' then
      let l1 := l0.next
      if l1.peek = '=' then (l1.next.newToken .LEQToken, none, l1.next)
      else (l1.newToken .LTToken, none, l1)
    else if c = '>' then
      let l1 := l0.next
      if l1.peek = '=' then (l1.next.newToken .GEQToken, none, l1.next)
      else (l1.newToken .GTToken, none, l1)
    else if c = '!' then
      let l1 := l0.next
      if l1.peek = '=' then (l1.next.newToken .NotEqualToken, none, l1.next)
      else (l1.newToken .NotToken, none, l1)
    else if c = '&' then
      let l1 := l0.next
      if l1.peek ≠ '&' then (zeroToken, some (l1.mkError "expected '&' after '&'"), l1)
      else (l1.next.newToken .AndToken, none, l1.next)
    else if c = '|' then
      let l1 := l0.next
      if l1.peek ≠ '|' then (zeroToken, some (l1.mkError "expected '|' after '|'"), l1)
      else (l1.next.newToken .OrToken, none, l1.next)
    else if c = '"' then
      let l1 := l0.next
      let (content, l2) := scanStringAux l1.remaining l1.line l1.column
      if l2.peek = '\x00' then
        (zeroToken, some (l2.mkError "unterminated string literal"), l2)
      else
        let l3 := l2.next
        (⟨.StringToken, String.mk content, l3.column, l3.line⟩, none, l3)
    else if c = '[' then (l0.next.newToken .LeftBracketToken, none, l0.next)
    else if c = ']' then (l0.next.newToken .RightBracketToken, none, l0.next)
    else if c = ',' then (l0.next.newToken .CommaToken, none, l0.next)
    else if goIsLetter c then
      let (lit, l1) := l0.readLiteral
      (keywordToken l1 lit, none, l1)
    else if goIsDigit c then
      let (lit, l1) := l0.readNumber
      (l1.newTokenLiteral .NumberToken lit, none, l1)
    else (zeroToken, some (l0.mkError "unexpected character"), l0)

/-- The result of `Tokenize`: the Go `([]Token, error)` pair, plus a
distinguished fuel-exhaustion marker for the model's explicit fuel. -/
inductive TokenizeResult where
  | toks (tokens : List Token)
  | err (e : LexerError)
  | fuelOut
  deriving DecidableEq, Repr

/-- The loop of `Lexer.Tokenize` from lexer/lexer.go, verbatim: the loop
condition `currToken.Type != EOFToken` is tested before `err != nil` is. -/
def tokenizeF : Nat → Lexer → List Token → TokenizeResult
  | 0, _, _ => .fuelOut
  | fuel + 1, l, acc =>
    let (currToken, e, l') := l.nextToken
    if currToken.type = .EOFToken then .toks acc
    else
      match e with
      | some e => .err e
      | none => tokenizeF fuel l' (acc ++ [currToken])

/-- `Lexer.Tokenize`: every successful loop iteration consumes at least one
character, so `remaining.length + 1` steps of fuel always suffice. -/
def Tokenize (l : Lexer) : TokenizeResult :=
  tokenizeF (l.remaining.length + 1) l []

/-! ## parser/ast.go — the node types

The evaluator-facing fields of the AST nodes.  The token annotations the
parser attaches for error formatting (`LetToken`, `OpToken`, …) play no role
in parsing decisions or in evaluation and are not represented; an
`Identifier` is represented by its name, the token's literal text. -/

/-- The `Expression` node variants of parser/ast.go. -/
inductive Expr where
  | numberLit (value : ℚ)
  | stringLit (value : String)
  | booleanLit (value : Bool)
  | arrayLit (elements : List Expr)
  | identifier (name : String)
  | binary (left : Expr) (op : TokenType) (right : Expr)
  | unary (op : TokenType) (right : Expr)
  | postfixExpr (left : Expr) (index : Expr)
  | functionCall (name : String) (args : List Expr)

/-- The `Statement` node variants of parser/ast.go.  `funcStmt` keeps the
parameter names (the `Execute` method of `FunctionStatement` reads nothing
else from its `Args`). -/
inductive Stmt where
  | declaration (name : String) (value : Expr)
  | assignment (name : String) (value : Expr)
  | indexAssignment (name : String) (index : Expr) (value : Expr)
  | ifStmt (cond : Expr) (thenBlock : List Stmt) (elseBlock : List Stmt)
  | whileStmt (cond : Expr) (body : List Stmt)
  | exprStmt (e : Expr)
  | funcStmt (name : String) (args : List String) (body : List Stmt)
  | returnStmt (value : Option Expr)

/-! ## parser/parser.go -/

/-- The Go parser returns `error`: either a position-anchored `*ParserError`
(`p.error(msg)` stores `p.peekToken()`) or, in one place, the error of
`strconv.ParseFloat` on a number literal, which carries no position. -/
inductive PError where
  | parserError (token : Token) (msg : String)
  | floatError (lit : String)
  deriving DecidableEq, Repr

/-- The decimal subset of `strconv.ParseFloat` (an optional sign, digits, an
optional fraction): everything the tiny-lang lexer can put in a
`NumberToken`, exactly; other strings are rejected. -/
def parseGoFloat (s : String) : Option ℚ :=
  let (sign, cs) : ℚ × List Char :=
    match s.data with
    | '-' :: r => (-1, r)
    | '+' :: r => (1, r)
    | cs => (1, cs)
  let ip := cs.takeWhile Char.isDigit
  let rest := cs.drop ip.length
  let natVal : List Char → ℚ := fun ds =>
    ((ds.foldl (fun a c => 10 * a + (c.toNat - '0'.toNat)) 0 : Nat) : ℚ)
  match rest with
  | [] => if ip = [] then none else some (sign * natVal ip)
  | '.' :: fr =>
    if fr.all Char.isDigit ∧ (ip ≠ [] ∨ fr ≠ []) then
      some (sign * (natVal ip + natVal fr / (10 : ℚ) ^ fr.length))
    else none
  | _ => none

namespace Parser

/-- `p.peek()`: out of range, Go returns `lexer.TokenType(0)`, i.e.
`EOFToken`. -/
def peek (tks : List Token) (i : Nat) : TokenType :=
  match tks[i]? with
  | some t => t.type
  | none => .EOFToken

/-- `p.peekToken()`: out of range, the zero `lexer.Token{}`. -/
def peekToken (tks : List Token) (i : Nat) : Token :=
  match tks[i]? with
  | some t => t
  | none => zeroToken

/-- `p.error(msg)`: a `ParserError` anchored at the current token. -/
def mkErr (tks : List Token) (i : Nat) (msg : String) : PError :=
  .parserError (peekToken tks i) msg

/-- Position after a parse step that consumed at least one token. -/
abbrev Pos (n i : Nat) := {j : Nat // i < j ∧ j ≤ n}

/-- Position after a parse step that consumed zero or more tokens (the Go
`for` loops exit without consuming). -/
abbrev PosLe (n i : Nat) := {j : Nat // i ≤ j ∧ j ≤ n}

/-- A successful `peek` of anything but `EOFToken` means the position is in
range (out-of-range `peek` is `EOFToken`). -/
theorem peek_lt {tks : List Token} {i : Nat} {t : TokenType}
    (h : peek tks i = t) (hne : t ≠ TokenType.EOFToken) : i < tks.length := by
  by_contra hcon
  push_neg at hcon
  have hnone : tks[i]? = none := List.getElem?_eq_none hcon
  have h2 : peek tks i = .EOFToken := by unfold peek; rw [hnone]
  exact hne (h.symm.trans h2)

/-- `p.match(expected)` from parser/parser.go. -/
def matchTok (tks : List Token) (expected : TokenType) (i : Nat) :
    Except PError (Pos tks.length i) :=
  if h : i < tks.length then
    if peek tks i = expected then .ok ⟨i + 1, by omega⟩
    else .error (mkErr tks i
      ("expected " ++ expected.goString ++ ", found " ++ (peek tks i).goString))
  else .error (mkErr tks i "unexpected EOF")

/-- The comparison-operator test of `parseComparison`. -/
def isComparisonOp (t : TokenType) : Bool :=
  t = .EqualToken || t = .NotEqualToken || t = .GTToken || t = .LTToken ||
    t = .GEQToken || t = .LEQToken

mutual

/-- `parseStatement`.  In the `IdentToken` case the Go code consumes the
identifier, and when neither `=` nor `(` follows it falls through into the
`default` case, which parses a fresh expression from the position after the
identifier (the identifier itself is lost). -/
def parseStatement (tks : List Token) (i : Nat) (hi : i ≤ tks.length) :
    Except PError (Stmt × Pos tks.length i) :=
  if peek tks i = .LetToken then parseDeclareStatement tks i hi
  else if peek tks i = .IfToken then parseIfStatement tks i hi
  else if peek tks i = .WhileToken then parseWhileStatement tks i hi
  else if peek tks i = .FunctionToken then parseFunctionStatement tks i hi
  else if hpk : peek tks i = .ReturnToken then parseReturnStatement tks i hi hpk
  else if hpk : peek tks i = .IdentToken then
    let ident := peekToken tks i
    have hlt : i < tks.length := peek_lt hpk (by simp)
    if peek tks (i + 1) = .AssignToken then
      match parseAssignStatement tks ident (i + 1) (by omega) with
      | .error e => .error e
      | .ok (stmt, ⟨j, hj⟩) => .ok (stmt, ⟨j, by omega⟩)
    else if peek tks (i + 1) = .LeftParenToken then
      match parseFunctionCall tks ident (i + 1) (by omega) with
      | .error e => .error e
      | .ok (expr, ⟨j, hj⟩) => .ok (.exprStmt expr, ⟨j, by omega⟩)
    else
      match parseLogicalExpression tks (i + 1) (by omega) with
      | .error e => .error e
      | .ok (expr, ⟨j, hj⟩) => .ok (.exprStmt expr, ⟨j, by omega⟩)
  else
    match parseLogicalExpression tks i hi with
    | .error e => .error e
    | .ok (expr, ⟨j, hj⟩) => .ok (.exprStmt expr, ⟨j, hj⟩)
termination_by (tks.length + 1 - i, 14)

/-- `parseDeclareStatement`. -/
def parseDeclareStatement (tks : List Token) (i : Nat) (hi : i ≤ tks.length) :
    Except PError (Stmt × Pos tks.length i) :=
  match matchTok tks .LetToken i with
  | .error e => .error e
  | .ok ⟨j, hj⟩ =>
    let identToken := peekToken tks j
    match matchTok tks .IdentToken j with
    | .error e => .error e
    | .ok ⟨k, hk⟩ =>
      match matchTok tks .DeclareToken k with
      | .error e => .error e
      | .ok ⟨m, hm⟩ =>
        match parseLogicalExpression tks m (by omega) with
        | .error e => .error e
        | .ok (exp, ⟨p, hp⟩) =>
          .ok (.declaration identToken.literal exp, ⟨p, by omega⟩)

/-- `parseAssignStatement`, entered after the identifier was consumed. -/
def parseAssignStatement (tks : List Token) (ident : Token) (i : Nat)
    (hi : i ≤ tks.length) : Except PError (Stmt × Pos tks.length i) :=
  if peek tks i = .LeftBracketToken then
    match matchTok tks .LeftBracketToken i with
    | .error e => .error e
    | .ok ⟨j, hj⟩ =>
      match parseExpression tks j (by omega) with
      | .error e => .error e
      | .ok (index, ⟨k, hk⟩) =>
        match matchTok tks .RightBracketToken k with
        | .error e => .error e
        | .ok ⟨m, hm⟩ =>
          match matchTok tks .AssignToken m with
          | .error e => .error e
          | .ok ⟨p, hp⟩ =>
            match parseLogicalExpression tks p (by omega) with
            | .error e => .error e
            | .ok (exp, ⟨q, hq⟩) =>
              .ok (.indexAssignment ident.literal index exp, ⟨q, by omega⟩)
  else
    match matchTok tks .AssignToken i with
    | .error e => .error e
    | .ok ⟨j, hj⟩ =>
      match parseLogicalExpression tks j (by omega) with
      | .error e => .error e
      | .ok (exp, ⟨k, hk⟩) =>
        .ok (.assignment ident.literal exp, ⟨k, by omega⟩)

/-- `parseIfStatement`: an `else if` becomes a nested if statement as the
single element of the else block. -/
def parseIfStatement (tks : List Token) (i : Nat) (hi : i ≤ tks.length) :
    Except PError (Stmt × Pos tks.length i) :=
  match matchTok tks .IfToken i with
  | .error e => .error e
  | .ok ⟨j, hj⟩ =>
    match parseLogicalExpression tks j (by omega) with
    | .error e => .error e
    | .ok (cond, ⟨k, hk⟩) =>
      match matchTok tks .LeftBraceToken k with
      | .error e => .error e
      | .ok ⟨m, hm⟩ =>
        match parseBlockLoop tks m (by omega) [] with
        | .error e => .error e
        | .ok (thenBlock, ⟨p, hp⟩) =>
          match matchTok tks .RightBraceToken p with
          | .error e => .error e
          | .ok ⟨q, hq⟩ =>
            if peek tks q ≠ .ElseToken then
              .ok (.ifStmt cond thenBlock [], ⟨q, by omega⟩)
            else
              match matchTok tks .ElseToken q with
              | .error e => .error e
              | .ok ⟨r, hr⟩ =>
                if peek tks r = .IfToken then
                  match parseIfStatement tks r (by omega) with
                  | .error e => .error e
                  | .ok (elseIf, ⟨s, hs⟩) =>
                    .ok (.ifStmt cond thenBlock [elseIf], ⟨s, by omega⟩)
                else
                  match matchTok tks .LeftBraceToken r with
                  | .error e => .error e
                  | .ok ⟨s, hs⟩ =>
                    match parseBlockLoop tks s (by omega) [] with
                    | .error e => .error e
                    | .ok (elseBlock, ⟨t, ht⟩) =>
                      match matchTok tks .RightBraceToken t with
                      | .error e => .error e
                      | .ok ⟨u, hu⟩ =>
                        .ok (.ifStmt cond thenBlock elseBlock, ⟨u, by omega⟩)
termination_by (tks.length + 1 - i, 13)

/-- `parseWhileStatement`. -/
def parseWhileStatement (tks : List Token) (i : Nat) (hi : i ≤ tks.length) :
    Except PError (Stmt × Pos tks.length i) :=
  match matchTok tks .WhileToken i with
  | .error e => .error e
  | .ok ⟨j, hj⟩ =>
    match parseLogicalExpression tks j (by omega) with
    | .error e => .error e
    | .ok (cond, ⟨k, hk⟩) =>
      match matchTok tks .LeftBraceToken k with
      | .error e => .error e
      | .ok ⟨m, hm⟩ =>
        match parseBlockLoop tks m (by omega) [] with
        | .error e => .error e
        | .ok (body, ⟨p, hp⟩) =>
          match matchTok tks .RightBraceToken p with
          | .error e => .error e
          | .ok ⟨q, hq⟩ => .ok (.whileStmt cond body, ⟨q, by omega⟩)
termination_by (tks.length + 1 - i, 13)

/-- The statement-collecting loop `for p.peek() != RightBraceToken { … }`
shared by the bodies of `parseIfStatement`, `parseWhileStatement` and
`parseFunctionStatement`. -/
def parseBlockLoop (tks : List Token) (i : Nat) (hi : i ≤ tks.length)
    (acc : List Stmt) : Except PError (List Stmt × PosLe tks.length i) :=
  if peek tks i = .RightBraceToken then .ok (acc, ⟨i, by omega⟩)
  else
    match parseStatement tks i hi with
    | .error e => .error e
    | .ok (stmt, ⟨j, hj⟩) =>
      match parseBlockLoop tks j (by omega) (acc ++ [stmt]) with
      | .error e => .error e
      | .ok (blk, ⟨k, hk⟩) => .ok (blk, ⟨k, by omega⟩)
termination_by (tks.length + 1 - i, 15)

/-- `parseLogicalExpression`: a left fold over `||`. -/
def parseLogicalExpression (tks : List Token) (i : Nat)
    (hi : i ≤ tks.length) : Except PError (Expr × Pos tks.length i) :=
  match parseLogicalTerm tks i hi with
  | .error e => .error e
  | .ok (left, ⟨j, hj⟩) =>
    match parseLogicalExpressionLoop tks left j (by omega) with
    | .error e => .error e
    | .ok (res, ⟨k, hk⟩) => .ok (res, ⟨k, by omega⟩)
termination_by (tks.length + 1 - i, 10)

/-- The `||` loop of `parseLogicalExpression`. -/
def parseLogicalExpressionLoop (tks : List Token) (left : Expr) (i : Nat)
    (hi : i ≤ tks.length) : Except PError (Expr × PosLe tks.length i) :=
  if peek tks i = .OrToken then
    match matchTok tks .OrToken i with
    | .error e => .error e
    | .ok ⟨j, hj⟩ =>
      match parseLogicalTerm tks j (by omega) with
      | .error e => .error e
      | .ok (right, ⟨k, hk⟩) =>
        match parseLogicalExpressionLoop tks (.binary left .OrToken right) k
            (by omega) with
        | .error e => .error e
        | .ok (res, ⟨m, hm⟩) => .ok (res, ⟨m, by omega⟩)
  else .ok (left, ⟨i, by omega⟩)
termination_by (tks.length + 1 - i, 11)

/-- `parseLogicalTerm`: a left fold over `&&`. -/
def parseLogicalTerm (tks : List Token) (i : Nat) (hi : i ≤ tks.length) :
    Except PError (Expr × Pos tks.length i) :=
  match parseLogicalUnary tks i hi with
  | .error e => .error e
  | .ok (left, ⟨j, hj⟩) =>
    match parseLogicalTermLoop tks left j (by omega) with
    | .error e => .error e
    | .ok (res, ⟨k, hk⟩) => .ok (res, ⟨k, by omega⟩)
termination_by (tks.length + 1 - i, 9)

/-- The `&&` loop of `parseLogicalTerm`. -/
def parseLogicalTermLoop (tks : List Token) (left : Expr) (i : Nat)
    (hi : i ≤ tks.length) : Except PError (Expr × PosLe tks.length i) :=
  if peek tks i = .AndToken then
    match matchTok tks .AndToken i with
    | .error e => .error e
    | .ok ⟨j, hj⟩ =>
      match parseLogicalUnary tks j (by omega) with
      | .error e => .error e
      | .ok (right, ⟨k, hk⟩) =>
        match parseLogicalTermLoop tks (.binary left .AndToken right) k
            (by omega) with
        | .error e => .error e
        | .ok (res, ⟨m, hm⟩) => .ok (res, ⟨m, by omega⟩)
  else .ok (left, ⟨i, by omega⟩)
termination_by (tks.length + 1 - i, 10)

/-- `parseLogicalUnary`: right-associated `!`. -/
def parseLogicalUnary (tks : List Token) (i : Nat) (hi : i ≤ tks.length) :
    Except PError (Expr × Pos tks.length i) :=
  if peek tks i = .NotToken then
    match matchTok tks .NotToken i with
    | .error e => .error e
    | .ok ⟨j, hj⟩ =>
      match parseLogicalUnary tks j (by omega) with
      | .error e => .error e
      | .ok (right, ⟨k, hk⟩) => .ok (.unary .NotToken right, ⟨k, by omega⟩)
  else parseLogicalFactor tks i hi
termination_by (tks.length + 1 - i, 8)

/-- `parseLogicalFactor`: a parenthesized logical expression, or a
comparison.  A leading `(` commits to the logical-level parenthesis. -/
def parseLogicalFactor (tks : List Token) (i : Nat) (hi : i ≤ tks.length) :
    Except PError (Expr × Pos tks.length i) :=
  if peek tks i = .LeftParenToken then
    match matchTok tks .LeftParenToken i with
    | .error e => .error e
    | .ok ⟨j, hj⟩ =>
      match parseLogicalExpression tks j (by omega) with
      | .error e => .error e
      | .ok (expr, ⟨k, hk⟩) =>
        match matchTok tks .RightParenToken k with
        | .error e => .error e
        | .ok ⟨m, hm⟩ => .ok (expr, ⟨m, by omega⟩)
  else parseComparison tks i hi
termination_by (tks.length + 1 - i, 7)

/-- `parseComparison`: at most one comparison operator, no chaining. -/
def parseComparison (tks : List Token) (i : Nat) (hi : i ≤ tks.length) :
    Except PError (Expr × Pos tks.length i) :=
  match parseExpression tks i hi with
  | .error e => .error e
  | .ok (left, ⟨j, hj⟩) =>
    if isComparisonOp (peek tks j) then
      let op := peek tks j
      match matchTok tks op j with
      | .error e => .error e
      | .ok ⟨k, hk⟩ =>
        match parseExpression tks k (by omega) with
        | .error e => .error e
        | .ok (right, ⟨m, hm⟩) => .ok (.binary left op right, ⟨m, by omega⟩)
    else .ok (left, ⟨j, hj⟩)
termination_by (tks.length + 1 - i, 6)

/-- `parseExpression`: a left fold over `+` and `-`. -/
def parseExpression (tks : List Token) (i : Nat) (hi : i ≤ tks.length) :
    Except PError (Expr × Pos tks.length i) :=
  match parseTerm tks i hi with
  | .error e => .error e
  | .ok (left, ⟨j, hj⟩) =>
    match parseExpressionLoop tks left j (by omega) with
    | .error e => .error e
    | .ok (res, ⟨k, hk⟩) => .ok (res, ⟨k, by omega⟩)
termination_by (tks.length + 1 - i, 5)

/-- The additive loop of `parseExpression`. -/
def parseExpressionLoop (tks : List Token) (left : Expr) (i : Nat)
    (hi : i ≤ tks.length) : Except PError (Expr × PosLe tks.length i) :=
  if peek tks i = .PlusToken || peek tks i = .MinusToken then
    let op := peek tks i
    match matchTok tks op i with
    | .error e => .error e
    | .ok ⟨j, hj⟩ =>
      match parseTerm tks j (by omega) with
      | .error e => .error e
      | .ok (right, ⟨k, hk⟩) =>
        match parseExpressionLoop tks (.binary left op right) k (by omega) with
        | .error e => .error e
        | .ok (res, ⟨m, hm⟩) => .ok (res, ⟨m, by omega⟩)
  else .ok (left, ⟨i, by omega⟩)
termination_by (tks.length + 1 - i, 6)

/-- `parseTerm`: a left fold over `*` and `/`. -/
def parseTerm (tks : List Token) (i : Nat) (hi : i ≤ tks.length) :
    Except PError (Expr × Pos tks.length i) :=
  match parseUnary tks i hi with
  | .error e => .error e
  | .ok (left, ⟨j, hj⟩) =>
    match parseTermLoop tks left j (by omega) with
    | .error e => .error e
    | .ok (res, ⟨k, hk⟩) => .ok (res, ⟨k, by omega⟩)
termination_by (tks.length + 1 - i, 4)

/-- The multiplicative loop of `parseTerm`. -/
def parseTermLoop (tks : List Token) (left : Expr) (i : Nat)
    (hi : i ≤ tks.length) : Except PError (Expr × PosLe tks.length i) :=
  if peek tks i = .MultiplyToken || peek tks i = .DivideToken then
    let op := peek tks i
    match matchTok tks op i with
    | .error e => .error e
    | .ok ⟨j, hj⟩ =>
      match parseUnary tks j (by omega) with
      | .error e => .error e
      | .ok (right, ⟨k, hk⟩) =>
        match parseTermLoop tks (.binary left op right) k (by omega) with
        | .error e => .error e
        | .ok (res, ⟨m, hm⟩) => .ok (res, ⟨m, by omega⟩)
  else .ok (left, ⟨i, by omega⟩)
termination_by (tks.length + 1 - i, 5)

/-- `parseUnary`: right-associated unary minus. -/
def parseUnary (tks : List Token) (i : Nat) (hi : i ≤ tks.length) :
    Except PError (Expr × Pos tks.length i) :=
  if peek tks i = .MinusToken then
    match matchTok tks .MinusToken i with
    | .error e => .error e
    | .ok ⟨j, hj⟩ =>
      match parseUnary tks j (by omega) with
      | .error e => .error e
      | .ok (right, ⟨k, hk⟩) => .ok (.unary .MinusToken right, ⟨k, by omega⟩)
  else parseFactor tks i hi
termination_by (tks.length + 1 - i, 3)

/-- `parseFactor`: a primary with an optional index postfix. -/
def parseFactor (tks : List Token) (i : Nat) (hi : i ≤ tks.length) :
    Except PError (Expr × Pos tks.length i) :=
  match parsePrimary tks i hi with
  | .error e => .error e
  | .ok (primary, ⟨j, hj⟩) =>
    if peek tks j = .LeftBracketToken then
      match matchTok tks .LeftBracketToken j with
      | .error e => .error e
      | .ok ⟨k, hk⟩ =>
        match parseExpression tks k (by omega) with
        | .error e => .error e
        | .ok (index, ⟨m, hm⟩) =>
          match matchTok tks .RightBracketToken m with
          | .error e => .error e
          | .ok ⟨p, hp⟩ => .ok (.postfixExpr primary index, ⟨p, by omega⟩)
    else .ok (primary, ⟨j, hj⟩)
termination_by (tks.length + 1 - i, 2)

/-- `parsePrimary`.  The `NumberToken` case forwards a `strconv.ParseFloat`
failure as-is (not position-anchored); in the `IdentToken` case the ignored
`p.match(IdentToken)` always succeeds, because the branch was selected on
`p.peek()`. -/
def parsePrimary (tks : List Token) (i : Nat) (hi : i ≤ tks.length) :
    Except PError (Expr × Pos tks.length i) :=
  if peek tks i = .LeftParenToken then
    match matchTok tks .LeftParenToken i with
    | .error e => .error e
    | .ok ⟨j, hj⟩ =>
      match parseExpression tks j (by omega) with
      | .error e => .error e
      | .ok (expr, ⟨k, hk⟩) =>
        match matchTok tks .RightParenToken k with
        | .error e => .error e
        | .ok ⟨m, hm⟩ => .ok (expr, ⟨m, by omega⟩)
  else if peek tks i = .NumberToken then
    let token := peekToken tks i
    match matchTok tks .NumberToken i with
    | .error e => .error e
    | .ok ⟨j, hj⟩ =>
      match parseGoFloat token.literal with
      | none => .error (.floatError token.literal)
      | some value => .ok (.numberLit value, ⟨j, hj⟩)
  else if peek tks i = .StringToken then
    let token := peekToken tks i
    match matchTok tks .StringToken i with
    | .error e => .error e
    | .ok ⟨j, hj⟩ => .ok (.stringLit token.literal, ⟨j, hj⟩)
  else if peek tks i = .TrueToken then
    match matchTok tks .TrueToken i with
    | .error e => .error e
    | .ok ⟨j, hj⟩ => .ok (.booleanLit true, ⟨j, hj⟩)
  else if peek tks i = .FalseToken then
    match matchTok tks .FalseToken i with
    | .error e => .error e
    | .ok ⟨j, hj⟩ => .ok (.booleanLit false, ⟨j, hj⟩)
  else if hpk : peek tks i = .IdentToken then
    let token := peekToken tks i
    have hlt : i < tks.length := peek_lt hpk (by simp)
    if peek tks (i + 1) = .LeftParenToken then
      match parseFunctionCall tks token (i + 1) (by omega) with
      | .error e => .error e
      | .ok (expr, ⟨j, hj⟩) => .ok (expr, ⟨j, by omega⟩)
    else .ok (.identifier token.literal, ⟨i + 1, by omega⟩)
  else if peek tks i = .LeftBracketToken then parseArrayLiteral tks i hi
  else
    .error (mkErr tks i
      ("unexpected token in primary expression: " ++ (peek tks i).goString))
termination_by (tks.length + 1 - i, 1)

/-- `parseArrayLiteral`. -/
def parseArrayLiteral (tks : List Token) (i : Nat) (hi : i ≤ tks.length) :
    Except PError (Expr × Pos tks.length i) :=
  match matchTok tks .LeftBracketToken i with
  | .error e => .error e
  | .ok ⟨j, hj⟩ =>
    match parseArrayElemsLoop tks j (by omega) [] with
    | .error e => .error e
    | .ok (elements, ⟨k, hk⟩) =>
      match matchTok tks .RightBracketToken k with
      | .error e => .error e
      | .ok ⟨m, hm⟩ => .ok (.arrayLit elements, ⟨m, by omega⟩)
termination_by (tks.length + 1 - i, 0)

/-- The element loop of `parseArrayLiteral`: elements until `]`, commas
optional between them. -/
def parseArrayElemsLoop (tks : List Token) (i : Nat) (hi : i ≤ tks.length)
    (acc : List Expr) : Except PError (List Expr × PosLe tks.length i) :=
  if peek tks i = .RightBracketToken then .ok (acc, ⟨i, by omega⟩)
  else
    match parseLogicalExpression tks i hi with
    | .error e => .error e
    | .ok (exp, ⟨j, hj⟩) =>
      if peek tks j = .CommaToken then
        match matchTok tks .CommaToken j with
        | .error e => .error e
        | .ok ⟨k, hk⟩ =>
          match parseArrayElemsLoop tks k (by omega) (acc ++ [exp]) with
          | .error e => .error e
          | .ok (es, ⟨m, hm⟩) => .ok (es, ⟨m, by omega⟩)
      else
        match parseArrayElemsLoop tks j (by omega) (acc ++ [exp]) with
        | .error e => .error e
        | .ok (es, ⟨m, hm⟩) => .ok (es, ⟨m, by omega⟩)
termination_by (tks.length + 1 - i, 12)

/-- `parseFunctionStatement` up to the parameter list. -/
def parseFunctionStatement (tks : List Token) (i : Nat)
    (hi : i ≤ tks.length) : Except PError (Stmt × Pos tks.length i) :=
  match matchTok tks .FunctionToken i with
  | .error e => .error e
  | .ok ⟨j, hj⟩ =>
    let ident := peekToken tks j
    match matchTok tks .IdentToken j with
    | .error e => .error e
    | .ok ⟨k, hk⟩ =>
      if hc : peek tks k = .ColonToken then
        match parseArgumentStatement tks k (by omega) hc with
        | .error e => .error e
        | .ok (args, ⟨m, hm⟩) =>
          match parseFunctionBodyPart tks ident.literal args m (by omega) with
          | .error e => .error e
          | .ok (stmt, ⟨p, hp⟩) => .ok (stmt, ⟨p, by omega⟩)
      else
        match parseFunctionBodyPart tks ident.literal [] k (by omega) with
        | .error e => .error e
        | .ok (stmt, ⟨p, hp⟩) => .ok (stmt, ⟨p, by omega⟩)
termination_by (tks.length + 1 - i, 13)

/-- The shared tail of `parseFunctionStatement` after the optional parameter
list: the brace-delimited body.  The final `p.match(RightBraceToken)` has its
error ignored in the Go code, so a mismatch leaves the position unchanged. -/
def parseFunctionBodyPart (tks : List Token) (name : String)
    (args : List String) (i : Nat) (hi : i ≤ tks.length) :
    Except PError (Stmt × PosLe tks.length i) :=
  match matchTok tks .LeftBraceToken i with
  | .error e => .error e
  | .ok ⟨j, hj⟩ =>
    match parseBlockLoop tks j (by omega) [] with
    | .error e => .error e
    | .ok (body, ⟨k, hk⟩) =>
      match matchTok tks .RightBraceToken k with
      | .ok ⟨m, hm⟩ => .ok (.funcStmt name args body, ⟨m, by omega⟩)
      | .error _ => .ok (.funcStmt name args body, ⟨k, by omega⟩)
termination_by (tks.length + 1 - i, 13)

/-- `parseArgumentStatement`, reached only when the current token is `:`
(the Go code ignores the error of `p.match(ColonToken)`, which cannot
fail here). -/
def parseArgumentStatement (tks : List Token) (i : Nat)
    (hi : i ≤ tks.length) (hc : peek tks i = .ColonToken) :
    Except PError (List String × Pos tks.length i) :=
  have hlt : i < tks.length := peek_lt hc (by simp)
  let ident := peekToken tks (i + 1)
  match matchTok tks .IdentToken (i + 1) with
  | .error e => .error e
  | .ok ⟨j, hj⟩ =>
    match parseArgIdentsLoop tks j (by omega) [ident.literal] with
    | .error e => .error e
    | .ok (decls, ⟨k, hk⟩) => .ok (decls, ⟨k, by omega⟩)

/-- The comma loop of `parseArgumentStatement` (the `p.match(CommaToken)`
error is ignored; it cannot fail, the loop tested the comma). -/
def parseArgIdentsLoop (tks : List Token) (i : Nat) (hi : i ≤ tks.length)
    (acc : List String) : Except PError (List String × PosLe tks.length i) :=
  if hcm : peek tks i = .CommaToken then
    have hlt : i < tks.length := peek_lt hcm (by simp)
    let ident := peekToken tks (i + 1)
    match matchTok tks .IdentToken (i + 1) with
    | .error e => .error e
    | .ok ⟨j, hj⟩ =>
      match parseArgIdentsLoop tks j (by omega) (acc ++ [ident.literal]) with
      | .error e => .error e
      | .ok (decls, ⟨k, hk⟩) => .ok (decls, ⟨k, by omega⟩)
  else .ok (acc, ⟨i, by omega⟩)
termination_by (tks.length + 1 - i, 13)

/-- `parseFunctionCall`, entered after the callee identifier was consumed,
at the opening parenthesis.  A failed closing-parenthesis match is replaced
by a fresh `p.error("expected right closing paren.")`. -/
def parseFunctionCall (tks : List Token) (ident : Token) (i : Nat)
    (hi : i ≤ tks.length) : Except PError (Expr × Pos tks.length i) :=
  match matchTok tks .LeftParenToken i with
  | .error e => .error e
  | .ok ⟨j, hj⟩ =>
    if peek tks j ≠ .RightParenToken then
      match parseExpression tks j (by omega) with
      | .error e => .error e
      | .ok (arg, ⟨k, hk⟩) =>
        match parseCallArgsLoop tks k (by omega) [arg] with
        | .error e => .error e
        | .ok (args, ⟨m, hm⟩) =>
          match matchTok tks .RightParenToken m with
          | .error _ => .error (mkErr tks m "expected right closing paren.")
          | .ok ⟨p, hp⟩ =>
            .ok (.functionCall ident.literal args, ⟨p, by omega⟩)
    else
      match matchTok tks .RightParenToken j with
      | .error _ => .error (mkErr tks j "expected right closing paren.")
      | .ok ⟨p, hp⟩ => .ok (.functionCall ident.literal [], ⟨p, by omega⟩)
termination_by (tks.length + 1 - i, 13)

/-- The comma loop of `parseFunctionCall`'s argument list (the
`p.match(CommaToken)` error is ignored; it cannot fail). -/
def parseCallArgsLoop (tks : List Token) (i : Nat) (hi : i ≤ tks.length)
    (acc : List Expr) : Except PError (List Expr × PosLe tks.length i) :=
  if hcm : peek tks i = .CommaToken then
    have hlt : i < tks.length := peek_lt hcm (by simp)
    match parseExpression tks (i + 1) (by omega) with
    | .error e => .error e
    | .ok (expr, ⟨j, hj⟩) =>
      match parseCallArgsLoop tks j (by omega) (acc ++ [expr]) with
      | .error e => .error e
      | .ok (args, ⟨k, hk⟩) => .ok (args, ⟨k, by omega⟩)
  else .ok (acc, ⟨i, by omega⟩)
termination_by (tks.length + 1 - i, 13)

/-- `parseReturnStatement`, reached only when the current token is `return`
(the ignored `p.match(ReturnToken)` cannot fail).  A following `}` or end of
input makes the return value absent. -/
def parseReturnStatement (tks : List Token) (i : Nat) (hi : i ≤ tks.length)
    (hpk : peek tks i = .ReturnToken) :
    Except PError (Stmt × Pos tks.length i) :=
  have hlt : i < tks.length := peek_lt hpk (by simp)
  if peek tks (i + 1) = .RightBraceToken ∨ peek tks (i + 1) = .EOFToken then
    .ok (.returnStmt none, ⟨i + 1, by omega⟩)
  else
    match parseExpression tks (i + 1) (by omega) with
    | .error e => .error e
    | .ok (expr, ⟨j, hj⟩) => .ok (.returnStmt (some expr), ⟨j, by omega⟩)

/-- The loop of `parseProgram`: statements until the tokens are exhausted;
an explicit `EOFToken` inside the list is an error. -/
def parseProgramLoop (tks : List Token) (i : Nat) (hi : i ≤ tks.length)
    (acc : List Stmt) : Except PError (List Stmt × PosLe tks.length i) :=
  if h : i < tks.length then
    if peek tks i = .EOFToken then .error (mkErr tks i "unexpected EOF")
    else
      match parseStatement tks i (by omega) with
      | .error e => .error e
      | .ok (stmt, ⟨j, hj⟩) =>
        match parseProgramLoop tks j (by omega) (acc ++ [stmt]) with
        | .error e => .error e
        | .ok (stmts, ⟨k, hk⟩) => .ok (stmts, ⟨k, by omega⟩)
  else .ok (acc, ⟨i, ⟨Nat.le_refl i, hi⟩⟩)
termination_by (tks.length + 1 - i, 15)

end

/-- `Parser.Parse` (which is `parseProgram`): the whole token list to a
statement sequence or the first error. -/
def Parse (tks : List Token) : Except PError (List Stmt) :=
  match parseProgramLoop tks 0 (by omega) [] with
  | .error e => .error e
  | .ok (stmts, _) => .ok stmts

end Parser

/-! ## parser/environment.go — values and environments

Go's `Value` struct is a tag plus one live field; the embedding is the
corresponding sum.  An `Array` value is a Go slice header: a reference to a
backing store that every copy of the value shares.  The embedding makes the
store explicit (`EvalState.arrays`), and an array value holds its index.
Environments form a parent chain of mutable frames; the embedding keeps all
frames in `EvalState.frames` (children are appended after their parents, so
a parent index is always smaller than its child's) and a chain walk takes
explicit fuel, `i + 1` sufficing for a walk that starts at frame `i`. -/

/-- `ValueType` from parser/environment.go. -/
inductive ValueType where
  | Void
  | Number
  | Str
  | Boolean
  | Array
  | Function
  | NativeFunction
  deriving DecidableEq, Repr

/-- `ValueType.String()` from parser/environment.go. -/
def ValueType.goString : ValueType → String
  | .Void => "Void"
  | .Number => "Number"
  | .Str => "String"
  | .Boolean => "Boolean"
  | .Array => "Array"
  | .Function => "Function"
  | .NativeFunction => "NativeFn"

/-- `Func` from parser/environment.go: parameter names and body. -/
structure Func where
  argNames : List String
  body : List Stmt

/-- The host-provided native functions: `defaultVars` contains exactly one,
`print`. -/
inductive NativeFn where
  | print

/-- `Value` from parser/environment.go as a sum over the live field.  The Go
zero value `Value{}` is `void`. -/
inductive Value where
  | void
  | number (value : ℚ)
  | str (value : String)
  | boolean (value : Bool)
  | array (ref : Nat)
  | function (fn : Func)
  | nativeFunction (fn : NativeFn)

/-- The `Type` tag of a `Value`. -/
def Value.vtype : Value → ValueType
  | .void => .Void
  | .number _ => .Number
  | .str _ => .Str
  | .boolean _ => .Boolean
  | .array _ => .Array
  | .function _ => .Function
  | .nativeFunction _ => .NativeFunction

/-- One environment frame: its `variables` map and the optional parent. -/
structure Frame where
  vars : List (String × Value)
  parent : Option Nat

/-- The whole mutable state of an evaluation: every environment frame ever
created, every array backing store ever allocated, and the text printed so
far. -/
structure EvalState where
  frames : List Frame
  arrays : List (List Value)
  output : String

/-- Lookup in one frame's map (`env.variables[name]`). -/
def varsGet : List (String × Value) → String → Option Value
  | [], _ => none
  | (k, v) :: rest, name => if k = name then some v else varsGet rest name

/-- Update-or-insert in one frame's map (`env.variables[name] = value`). -/
def varsSet : List (String × Value) → String → Value → List (String × Value)
  | [], name, v => [(name, v)]
  | (k, w) :: rest, name, v =>
    if k = name then (k, v) :: rest else (k, w) :: varsSet rest name v

/-- `Environment.Get`: look in the frame, else recurse into the parent.
`gas` bounds the chain walk (`i + 1` suffices when parents precede their
children); a dangling frame index reports not-found. -/
def envGetF : Nat → List Frame → Nat → String → Option Value
  | 0, _, _, _ => none
  | gas + 1, frames, i, name =>
    match frames[i]? with
    | none => none
    | some fr =>
      match varsGet fr.vars name with
      | some v => some v
      | none =>
        match fr.parent with
        | some p => envGetF gas frames p name
        | none => none

/-- `Environment.Define`: insert into the local frame. -/
def envDefine (frames : List Frame) (i : Nat) (name : String) (v : Value) :
    List Frame :=
  match frames[i]? with
  | some fr => frames.set i { fr with vars := varsSet fr.vars name v }
  | none => frames

/-- `Environment.Set`: mutate the nearest frame that binds the name, walking
outward; insert locally only when no ancestor binds it. -/
def envSetF : Nat → List Frame → Nat → String → Value → List Frame
  | 0, frames, _, _, _ => frames
  | gas + 1, frames, i, name, v =>
    match frames[i]? with
    | none => frames
    | some fr =>
      match varsGet fr.vars name with
      | some _ => frames.set i { fr with vars := varsSet fr.vars name v }
      | none =>
        match fr.parent with
        | some p => envSetF gas frames p name v
        | none => frames.set i { fr with vars := varsSet fr.vars name v }

/-- `Value.AsBoolean` from parser/environment.go: the truthiness coercion.
It is defined in the source and never called by the evaluator; the `Array`
case reads the slice length, so the model takes the backing stores. -/
def asBoolean (heap : List (List Value)) : Value → Bool
  | .void => false
  | .number q => decide (q ≠ 0)
  | .boolean b => b
  | .array ref => decide (0 < (heap.getD ref []).length)
  | .str s => decide (0 < s.length)
  | .function _ => true
  | .nativeFunction _ => true

/-- Go's `int(f)` conversion of a `float64`: truncation toward zero. -/
def goInt (q : ℚ) : Int := if 0 ≤ q then q.floor else q.ceil

/-- Go's `%f` format: sign, integer digits, six fractional digits. -/
def fmtGoF (q : ℚ) : String :=
  let m := (round (|q| * 1000000)).toNat
  let fs := Nat.repr (m % 1000000)
  (if q < 0 then "-" else "") ++ Nat.repr (m / 1000000) ++ "." ++
    (String.mk (List.replicate (6 - fs.length) '0') ++ fs)

/-- `Value.String()` from parser/environment.go, the print rendering.  An
array renders as Go's `%v` of a slice: bracketed, space-separated elements.
The fuel bounds the depth (a Go array can reach itself through aliasing, on
which the Go rendering diverges). -/
def renderValueF : Nat → List (List Value) → Value → String
  | 0, _, _ => ""
  | fuel + 1, heap, v =>
    match v with
    | .void => "void"
    | .number q => fmtGoF q
    | .str s => s
    | .boolean b => if b then "true" else "false"
    | .array ref =>
      "[" ++ joinSpace ((heap.getD ref []).map (renderValueF fuel heap)) ++ "]"
    | .function _ => "fn"
    | .nativeFunction _ => "nativeFn"
where
  joinSpace : List String → String
    | [] => ""
    | [s] => s
    | s :: rest => s ++ " " ++ joinSpace rest

/-- The space-separated tail of one `print` call: `fmt.Printf(" %v", v)` for
each argument after the first. -/
def printArgsAux (fuel : Nat) (heap : List (List Value)) :
    List Value → String
  | [] => ""
  | v :: rest => " " ++ renderValueF fuel heap v ++ printArgsAux fuel heap rest

/-! ## parser/ast.go — the evaluator -/

/-- The error channel of the evaluator: a `RuntimeError` message, the
distinguished `ReturnSignal` carrying a value, or the model's fuel
exhaustion (Go instead diverges).  Each error carries the state at the time
it was raised, because Go's in-place mutations survive an error. -/
inductive EErr where
  | rt (msg : String)
  | retSig (v : Value)
  | fuelOut

/-- The `print` native from `defaultVars` in parser/environment.go: at least
one argument required; arguments print space-separated, newline-terminated;
the result is the zero `Value{}`, i.e. `void`. -/
def callNative (nfn : NativeFn) (fuel : Nat) (args : List Value)
    (st : EvalState) : Except (EErr × EvalState) (Value × EvalState) :=
  match nfn with
  | .print =>
    match args with
    | [] => .error (.rt "print expects at least 1 value", st)
    | v :: rest =>
      let line := renderValueF fuel st.arrays v ++
        printArgsAux fuel st.arrays rest ++ "\n"
      .ok (.void, { st with output := st.output ++ line })

/-- `BinaryExpression.Eval`'s operator table (the part after both operands
are evaluated), a pure function: the type-mismatch check, then the
per-type operator dispatch. -/
def evalBinaryOp (left : Value) (op : TokenType) (right : Value) :
    Except String Value :=
  if left.vtype ≠ right.vtype then
    .error ("type mismatch: " ++ left.vtype.goString ++ " and " ++
      right.vtype.goString)
  else
    match left, right with
    | .number a, .number b =>
      match op with
      | .PlusToken => .ok (.number (a + b))
      | .MinusToken => .ok (.number (a - b))
      | .MultiplyToken => .ok (.number (a * b))
      | .DivideToken =>
        if b = 0 then .error "division by zero" else .ok (.number (a / b))
      | .EqualToken => .ok (.boolean (decide (a = b)))
      | .NotEqualToken => .ok (.boolean (decide (a ≠ b)))
      | .LTToken => .ok (.boolean (decide (a < b)))
      | .LEQToken => .ok (.boolean (decide (a ≤ b)))
      | .GTToken => .ok (.boolean (decide (b < a)))
      | .GEQToken => .ok (.boolean (decide (b ≤ a)))
      | _ => .error ("unknown operator: " ++ op.goString)
    | .str a, .str b =>
      match op with
      | .PlusToken => .ok (.str (a ++ b))
      | .EqualToken => .ok (.boolean (decide (a = b)))
      | .NotEqualToken => .ok (.boolean (decide (a ≠ b)))
      | _ => .error ("unknown operator for strings: " ++ op.goString)
    | .boolean a, .boolean b =>
      match op with
      | .EqualToken => .ok (.boolean (a == b))
      | .NotEqualToken => .ok (.boolean (a != b))
      | .AndToken => .ok (.boolean (a && b))
      | .OrToken => .ok (.boolean (a || b))
      | _ => .error ("unknown operator for booleans: " ++ op.goString)
    | _, _ =>
      .error ("unsupported type for binary operation: " ++
        left.vtype.goString)

/-- `UnaryExpression.Eval`'s operator table, a pure function. -/
def evalUnaryOp (op : TokenType) (value : Value) : Except String Value :=
  match value with
  | .number q =>
    match op with
    | .MinusToken => .ok (.number (-q))
    | _ => .error ("unknown unary operator: " ++ op.goString)
  | .boolean b =>
    match op with
    | .NotToken => .ok (.boolean (!b))
    | _ => .error ("unknown unary operator for boolean: " ++ op.goString)
  | v => .error ("unsupported type for unary operation: " ++ v.vtype.goString)

mutual

/-- `Expression.Eval` over every expression node of parser/ast.go, against
the frame `envI` of `st`. -/
def evalExpr (fuel : Nat) (st : EvalState) (envI : Nat) :
    Expr → Except (EErr × EvalState) (Value × EvalState)
  | .numberLit q => .ok (.number q, st)
  | .stringLit s => .ok (.str s, st)
  | .booleanLit b => .ok (.boolean b, st)
  | .arrayLit elems =>
    match fuel with
    | 0 => .error (.fuelOut, st)
    | fuel + 1 =>
      match evalExprList fuel st envI elems with
      | .error e => .error e
      | .ok (values, st') =>
        .ok (.array st'.arrays.length, { st' with arrays := st'.arrays ++ [values] })
  | .identifier name =>
    match envGetF (envI + 1) st.frames envI name with
    | some v => .ok (v, st)
    | none => .error (.rt ("undefined variable: " ++ name), st)
  | .binary l op r =>
    match fuel with
    | 0 => .error (.fuelOut, st)
    | fuel + 1 =>
      match evalExpr fuel st envI l with
      | .error e => .error e
      | .ok (lv, st1) =>
        match evalExpr fuel st1 envI r with
        | .error e => .error e
        | .ok (rv, st2) =>
          match evalBinaryOp lv op rv with
          | .ok v => .ok (v, st2)
          | .error msg => .error (.rt msg, st2)
  | .unary op r =>
    match fuel with
    | 0 => .error (.fuelOut, st)
    | fuel + 1 =>
      match evalExpr fuel st envI r with
      | .error e => .error e
      | .ok (v, st1) =>
        match evalUnaryOp op v with
        | .ok w => .ok (w, st1)
        | .error msg => .error (.rt msg, st1)
  | .postfixExpr l idx =>
    match fuel with
    | 0 => .error (.fuelOut, st)
    | fuel + 1 =>
      match evalExpr fuel st envI l with
      | .error e => .error e
      | .ok (lv, st1) =>
        match evalExpr fuel st1 envI idx with
        | .error e => .error e
        | .ok (iv, st2) =>
          match lv with
          | .array ref =>
            match iv with
            | .number q =>
              let arr := st2.arrays.getD ref []
              if goInt q < 0 ∨ (arr.length : Int) ≤ goInt q then
                .error (.rt ("index out of bounds: " ++ (goInt q).repr), st2)
              else .ok (arr.getD (goInt q).toNat .void, st2)
            | _ =>
              .error (.rt ("index must be a number, got " ++
                iv.vtype.goString), st2)
          | _ =>
            .error (.rt ("left side of postfix expression must be an array, got " ++
              lv.vtype.goString), st2)
  | .functionCall name args =>
    match fuel with
    | 0 => .error (.fuelOut, st)
    | fuel + 1 =>
      match envGetF (envI + 1) st.frames envI name with
      | none => .error (.rt ("undefined function: " ++ name), st)
      | some resolved =>
        match resolved with
        | .nativeFunction nfn =>
          match evalExprList fuel st envI args with
          | .error e => .error e
          | .ok (argv, st1) => callNative nfn fuel argv st1
        | .function funcVal =>
          if funcVal.argNames.length < args.length then
            .error (.rt ("too many arguments for function " ++ name), st)
          else if args.length < funcVal.argNames.length then
            .error (.rt ("too few arguments for function " ++ name), st)
          else
            let funcEnvI := st.frames.length
            let st1 := { st with frames := st.frames ++ [⟨[], some envI⟩] }
            match bindArgs fuel st1 envI funcEnvI args funcVal.argNames with
            | .error e => .error e
            | .ok st2 => runBody fuel st2 funcEnvI funcVal.body
        | _ => .error (.rt ("function call to non-function type: " ++ name), st)
termination_by structural fuel

/-- The left-to-right evaluation of an expression list (array-literal
elements, native-call arguments). -/
def evalExprList (fuel : Nat) (st : EvalState) (envI : Nat) :
    List Expr → Except (EErr × EvalState) (List Value × EvalState)
  | [] => .ok ([], st)
  | e :: rest =>
    match fuel with
    | 0 => .error (.fuelOut, st)
    | fuel + 1 =>
      match evalExpr fuel st envI e with
      | .error err => .error err
      | .ok (v, st1) =>
        match evalExprList fuel st1 envI rest with
        | .error err => .error err
        | .ok (vs, st2) => .ok (v :: vs, st2)
termination_by structural fuel

/-- The argument-binding loop of `FunctionCallExpression.Eval`: each
argument evaluates in the caller's environment, then `funcEnv.Define` binds
it in the fresh call frame.  The second list cannot be shorter; the arity
was checked. -/
def bindArgs (fuel : Nat) (st : EvalState) (envI funcEnvI : Nat) :
    List Expr → List String → Except (EErr × EvalState) EvalState
  | [], _ => .ok st
  | e :: es, argName :: argNames =>
    match fuel with
    | 0 => .error (.fuelOut, st)
    | fuel + 1 =>
      match evalExpr fuel st envI e with
      | .error err => .error err
      | .ok (v, st1) =>
        bindArgs fuel { st1 with frames := envDefine st1.frames funcEnvI argName v }
          envI funcEnvI es argNames
  | _ :: _, [] => .ok st
termination_by structural fuel

/-- The body loop of `FunctionCallExpression.Eval`: execute statements until
one raises an error; a `ReturnSignal` becomes the call's result, any other
error propagates; an exhausted body yields the zero `Value{}`, `void`. -/
def runBody (fuel : Nat) (st : EvalState) (funcEnvI : Nat) :
    List Stmt → Except (EErr × EvalState) (Value × EvalState)
  | [] => .ok (.void, st)
  | s :: rest =>
    match fuel with
    | 0 => .error (.fuelOut, st)
    | fuel + 1 =>
      match execStmt fuel st funcEnvI s with
      | .error (.retSig v, st') => .ok (v, st')
      | .error e => .error e
      | .ok st' => runBody fuel st' funcEnvI rest
termination_by structural fuel

/-- `Statement.Execute` over every statement node of parser/ast.go. -/
def execStmt (fuel : Nat) (st : EvalState) (envI : Nat) :
    Stmt → Except (EErr × EvalState) EvalState
  | .exprStmt e =>
    match fuel with
    | 0 => .error (.fuelOut, st)
    | fuel + 1 =>
      match evalExpr fuel st envI e with
      | .error err => .error err
      | .ok (_, st1) => .ok st1
  | .declaration name value =>
    match fuel with
    | 0 => .error (.fuelOut, st)
    | fuel + 1 =>
      match envGetF (envI + 1) st.frames envI name with
      | some _ => .error (.rt ("variable already declared: " ++ name), st)
      | none =>
        match evalExpr fuel st envI value with
        | .error err => .error err
        | .ok (v, st1) =>
          .ok { st1 with frames := envDefine st1.frames envI name v }
  | .assignment name value =>
    match fuel with
    | 0 => .error (.fuelOut, st)
    | fuel + 1 =>
      match envGetF (envI + 1) st.frames envI name with
      | none => .error (.rt ("undefined variable: " ++ name), st)
      | some _ =>
        match evalExpr fuel st envI value with
        | .error err => .error err
        | .ok (v, st1) =>
          .ok { st1 with frames := envSetF (envI + 1) st1.frames envI name v }
  | .indexAssignment name idxE valE =>
    match fuel with
    | 0 => .error (.fuelOut, st)
    | fuel + 1 =>
      match envGetF (envI + 1) st.frames envI name with
      | none => .error (.rt ("undefined variable: " ++ name), st)
      | some arr =>
        match arr with
        | .array ref =>
          match evalExpr fuel st envI idxE with
          | .error err => .error err
          | .ok (iv, st1) =>
            match evalExpr fuel st1 envI valE with
            | .error err => .error err
            | .ok (vv, st2) =>
              match iv with
              | .number q =>
                let a := st2.arrays.getD ref []
                if goInt q < 0 ∨ (a.length : Int) ≤ goInt q then
                  .error (.rt ("index out of bounds: " ++ (goInt q).repr), st2)
                else
                  .ok { st2 with
                    arrays := st2.arrays.set ref (a.set (goInt q).toNat vv) }
              | _ =>
                .error (.rt ("index must be a number, got " ++
                  iv.vtype.goString), st2)
        | _ =>
          .error (.rt ("left side of index assignment must be an array, got " ++
            arr.vtype.goString), st)
  | .ifStmt cond thn els =>
    match fuel with
    | 0 => .error (.fuelOut, st)
    | fuel + 1 =>
      match evalExpr fuel st envI cond with
      | .error err => .error err
      | .ok (cv, st1) =>
        match cv with
        | .boolean b =>
          let childEnvI := st1.frames.length
          let st2 := { st1 with frames := st1.frames ++ [⟨[], some envI⟩] }
          execStmts fuel st2 childEnvI (if b then thn else els)
        | _ =>
          .error (.rt ("condition must evaluate to boolean, got " ++
            cv.vtype.goString), st1)
  | .whileStmt cond body =>
    match fuel with
    | 0 => .error (.fuelOut, st)
    | fuel + 1 =>
      match evalExpr fuel st envI cond with
      | .error err => .error err
      | .ok (cv, st1) =>
        match cv with
        | .boolean b => execWhileLoop fuel st1 envI cond body b
        | _ =>
          .error (.rt ("condition must evaluate to boolean, got " ++
            cv.vtype.goString), st1)
  | .funcStmt name args body =>
    .ok { st with
      frames := envSetF (envI + 1) st.frames envI name (.function ⟨args, body⟩) }
  | .returnStmt none => .error (.retSig .void, st)
  | .returnStmt (some e) =>
    match fuel with
    | 0 => .error (.fuelOut, st)
    | fuel + 1 =>
      match evalExpr fuel st envI e with
      | .error err => .error err
      | .ok (v, st1) => .error (.retSig v, st1)
termination_by structural fuel

/-- Sequential statement execution with error propagation: the block bodies
of `IfStatement.Execute`, `WhileStatement.Execute` and the top-level loop of
`Parser.Execute`. -/
def execStmts (fuel : Nat) (st : EvalState) (envI : Nat) :
    List Stmt → Except (EErr × EvalState) EvalState
  | [] => .ok st
  | s :: rest =>
    match fuel with
    | 0 => .error (.fuelOut, st)
    | fuel + 1 =>
      match execStmt fuel st envI s with
      | .error e => .error e
      | .ok st1 => execStmts fuel st1 envI rest
termination_by structural fuel

/-- The `for val.Boolean { … }` loop of `WhileStatement.Execute`: a fresh
child frame per iteration, the condition re-evaluated (in the loop's own
environment) after each body run. -/
def execWhileLoop (fuel : Nat) (st : EvalState) (envI : Nat) (cond : Expr)
    (body : List Stmt) : Bool → Except (EErr × EvalState) EvalState
  | false => .ok st
  | true =>
    match fuel with
    | 0 => .error (.fuelOut, st)
    | fuel + 1 =>
      let childEnvI := st.frames.length
      let st1 := { st with frames := st.frames ++ [⟨[], some envI⟩] }
      match execStmts fuel st1 childEnvI body with
      | .error e => .error e
      | .ok st2 =>
        match evalExpr fuel st2 envI cond with
        | .error err => .error err
        | .ok (cv, st3) =>
          match cv with
          | .boolean b => execWhileLoop fuel st3 envI cond body b
          | _ =>
            .error (.rt ("condition must evaluate to boolean, got " ++
              cv.vtype.goString), st3)
termination_by structural fuel

end

/-- The state `Parser.Execute(nil)` starts from: `NewEnvironment(nil)`, one
empty root frame (no built-ins). -/
def initialState : EvalState := ⟨[⟨[], none⟩], [], ""⟩

/-- The state rooted at `NewDefaultEnvironment()`: `defaultVars` binds
`print`. -/
def defaultState : EvalState :=
  ⟨[⟨[("print", .nativeFunction .print)], none⟩], [], ""⟩

/-- The execution loop of `Parser.Execute` after a successful parse. -/
def runProgram (fuel : Nat) (stmts : List Stmt) :
    Except (EErr × EvalState) EvalState :=
  execStmts fuel initialState 0 stmts

/-! ## Specification-side helpers

The next definitions belong to the statements of the theorems, not to the
embedded program: an independent description of what "the nearest frame in
the chain that binds a name" means, and the well-formedness of a frame
store (parents precede children), which every state built by the evaluator
satisfies. -/

/-- The nearest frame in the parent chain of `i` that binds `name`. -/
def chainFindF : Nat → List Frame → Nat → String → Option Nat
  | 0, _, _, _ => none
  | gas + 1, frames, i, name =>
    match frames[i]? with
    | none => none
    | some fr =>
      if (varsGet fr.vars name).isSome then some i
      else
        match fr.parent with
        | some p => chainFindF gas frames p name
        | none => none

/-- The outermost frame of the parent chain of `i` (where `Set` inserts when
no frame binds the name: its recursion `env.parent.Set(...)` bottoms out at
the root). -/
def chainRootF : Nat → List Frame → Nat → Nat
  | 0, _, i => i
  | gas + 1, frames, i =>
    match frames[i]? with
    | none => i
    | some fr =>
      match fr.parent with
      | some p => chainRootF gas frames p
      | none => i

/-- Well-formed frame store: every parent pointer goes to an earlier frame. -/
def ChainWF (frames : List Frame) : Prop :=
  ∀ (j : Nat) (fr : Frame), frames[j]? = some fr → ∀ p, fr.parent = some p → p < j

/-! ## Concrete inputs for the claims -/

/-- The token sequence of `"let a := [1,2,3] a[1] = 9"`. -/
def c2toks : List Token :=
  [⟨.LetToken, "LET", 4, 1⟩, ⟨.IdentToken, "a", 6, 1⟩, ⟨.DeclareToken, ":=", 9, 1⟩,
   ⟨.LeftBracketToken, "[", 11, 1⟩, ⟨.NumberToken, "1", 12, 1⟩, ⟨.CommaToken, ",", 13, 1⟩,
   ⟨.NumberToken, "2", 14, 1⟩, ⟨.CommaToken, ",", 15, 1⟩, ⟨.NumberToken, "3", 16, 1⟩,
   ⟨.RightBracketToken, "]", 17, 1⟩, ⟨.IdentToken, "a", 19, 1⟩, ⟨.LeftBracketToken, "[", 20, 1⟩,
   ⟨.NumberToken, "1", 21, 1⟩, ⟨.RightBracketToken, "]", 22, 1⟩, ⟨.AssignToken, "=", 24, 1⟩,
   ⟨.NumberToken, "9", 26, 1⟩]

/-- The token sequence of `"1 + 2 * 3"`. -/
def c7aToks : List Token :=
  [⟨.NumberToken, "1", 2, 1⟩, ⟨.PlusToken, "+", 4, 1⟩, ⟨.NumberToken, "2", 6, 1⟩,
   ⟨.MultiplyToken, "*", 8, 1⟩, ⟨.NumberToken, "3", 10, 1⟩]

/-- The AST of `1 + 2 * 3`. -/
def c7aExpr : Expr :=
  .binary (.numberLit 1) .PlusToken (.binary (.numberLit 2) .MultiplyToken (.numberLit 3))

/-- The token sequence of `"-2 * -3"`. -/
def c7bToks : List Token :=
  [⟨.MinusToken, "-", 2, 1⟩, ⟨.NumberToken, "2", 3, 1⟩, ⟨.MultiplyToken, "*", 5, 1⟩,
   ⟨.MinusToken, "-", 7, 1⟩, ⟨.NumberToken, "3", 8, 1⟩]

/-- The AST of `-2 * -3`. -/
def c7bExpr : Expr :=
  .binary (.unary .MinusToken (.numberLit 2)) .MultiplyToken
    (.unary .MinusToken (.numberLit 3))

/-- The token sequence of `"(1 + 2) * 3"`. -/
def c7cToks : List Token :=
  [⟨.LeftParenToken, "(", 2, 1⟩, ⟨.NumberToken, "1", 3, 1⟩, ⟨.PlusToken, "+", 5, 1⟩,
   ⟨.NumberToken, "2", 7, 1⟩, ⟨.RightParenToken, ")", 8, 1⟩, ⟨.MultiplyToken, "*", 10, 1⟩,
   ⟨.NumberToken, "3", 12, 1⟩]

/-- The token sequence of `"let x := 1 if true { let x := 2 }"`. -/
def c3toks : List Token :=
  [⟨.LetToken, "LET", 4, 1⟩, ⟨.IdentToken, "x", 6, 1⟩, ⟨.DeclareToken, ":=", 9, 1⟩,
   ⟨.NumberToken, "1", 11, 1⟩, ⟨.IfToken, "IF", 14, 1⟩, ⟨.TrueToken, "TRUE", 19, 1⟩,
   ⟨.LeftBraceToken, "\x7b", 21, 1⟩, ⟨.LetToken, "LET", 25, 1⟩, ⟨.IdentToken, "x", 27, 1⟩,
   ⟨.DeclareToken, ":=", 30, 1⟩, ⟨.NumberToken, "2", 32, 1⟩, ⟨.RightBraceToken, "\x7d", 34, 1⟩]

/-- The AST of `"let x := 1 if true { let x := 2 }"` (what `Parse` produces
on its token sequence). -/
def c3prog : List Stmt :=
  [.declaration "x" (.numberLit 1),
   .ifStmt (.booleanLit true) [.declaration "x" (.numberLit 2)] []]

/-- The state after `runProgram` stops on `c3prog`: the root frame holds
`x ↦ 1` and the if-branch child frame was created empty. -/
def c3errState : EvalState :=
  ⟨[⟨[("x", .number 1)], none⟩, ⟨[], some 0⟩], [], ""⟩

/-- A two-frame store for the witness of the `Set` characterization: the
root binds `y`, the child frame binds nothing. -/
def w5frames : List Frame := [⟨[("y", .number 1)], none⟩, ⟨[], some 0⟩]

/-! # Theorems

First the supporting lemmas, then one theorem per claim (C1–C10), each
stating the claim over the embedded definitions. -/

/-- Every error return of `NextToken` is the pair `(Token{}, err)`: the
token half is the zero token, whose type is `EOFToken`. -/
theorem nextToken_error_zero (l : Lexer) (tok : Token) (e : LexerError)
    (l' : Lexer) (h : l.nextToken = (tok, some e, l')) : tok = zeroToken := by
  have okl : ∀ (t : Token) (lx : Lexer),
      (t, (none : Option LexerError), lx) = (tok, some e, l') → tok = zeroToken := by
    intro t lx hh
    exact absurd (congrArg (fun y => y.2.1) hh) (by simp)
  have erl : ∀ (er : LexerError) (lx : Lexer),
      (zeroToken, some er, lx) = (tok, some e, l') → tok = zeroToken := by
    intro er lx hh
    exact (congrArg Prod.fst hh).symm
  dsimp only [Lexer.nextToken] at h
  generalize l.skipWhitespace = l0 at h
  split at h
  · exact okl _ _ h
  next c tail heq =>
    by_cases h0 : c = '='
    · rw [if_pos h0] at h; split at h <;> exact okl _ _ h
    rw [if_neg h0] at h
    by_cases h1 : c = ':'
    · rw [if_pos h1] at h; split at h <;> exact okl _ _ h
    rw [if_neg h1] at h
    by_cases h2 : c = '+'
    · rw [if_pos h2] at h; exact okl _ _ h
    rw [if_neg h2] at h
    by_cases h3 : c = '-'
    · rw [if_pos h3] at h; exact okl _ _ h
    rw [if_neg h3] at h
    by_cases h4 : c = '*'
    · rw [if_pos h4] at h; exact okl _ _ h
    rw [if_neg h4] at h
    by_cases h5 : c = '/'
    · rw [if_pos h5] at h; exact okl _ _ h
    rw [if_neg h5] at h
    by_cases h6 : c = '('
    · rw [if_pos h6] at h; exact okl _ _ h
    rw [if_neg h6] at h
    by_cases h7 : c = ')'
    · rw [if_pos h7] at h; exact okl _ _ h
    rw [if_neg h7] at h
    by_cases h8 : c = '{'
    · rw [if_pos h8] at h; exact okl _ _ h
    rw [if_neg h8] at h
    by_cases h9 : c = '}'
    · rw [if_pos h9] at h; exact okl _ _ h
    rw [if_neg h9] at h
    by_cases h10 : c = '<'
    · rw [if_pos h10] at h; split at h <;> exact okl _ _ h
    rw [if_neg h10] at h
    by_cases h11 : c = '>'
    · rw [if_pos h11] at h; split at h <;> exact okl _ _ h
    rw [if_neg h11] at h
    by_cases h12 : c = '!'
    · rw [if_pos h12] at h; split at h <;> exact okl _ _ h
    rw [if_neg h12] at h
    by_cases h13 : c = '&'
    · rw [if_pos h13] at h; split at h
      · exact erl _ _ h
      · exact okl _ _ h
    rw [if_neg h13] at h
    by_cases h14 : c = '|'
    · rw [if_pos h14] at h; split at h
      · exact erl _ _ h
      · exact okl _ _ h
    rw [if_neg h14] at h
    by_cases h15 : c = '"'
    · rw [if_pos h15] at h
      rcases scanStringAux l0.next.remaining l0.next.line l0.next.column with ⟨content, l2⟩
      split at h
      · exact erl _ _ h
      · exact okl _ _ h
    rw [if_neg h15] at h
    by_cases h16 : c = '['
    · rw [if_pos h16] at h; exact okl _ _ h
    rw [if_neg h16] at h
    by_cases h17 : c = ']'
    · rw [if_pos h17] at h; exact okl _ _ h
    rw [if_neg h17] at h
    by_cases h18 : c = ','
    · rw [if_pos h18] at h; exact okl _ _ h
    rw [if_neg h18] at h
    by_cases h19 : goIsLetter c = true
    · rw [if_pos h19] at h
      rcases l0.readLiteral with ⟨lit, l1⟩
      exact okl _ _ h
    rw [if_neg h19] at h
    by_cases h20 : goIsDigit c = true
    · rw [if_pos h20] at h
      rcases l0.readNumber with ⟨lit, l1⟩
      exact okl _ _ h
    rw [if_neg h20] at h
    exact erl _ _ h

/-- The `Tokenize` loop can never surface a `LexerError`: its loop condition
`currToken.Type != EOFToken` is tested before `err != nil`, and an erroring
`NextToken` returns `Token{}`, whose type is `EOFToken` — so the loop always
exits through the success path first. -/
theorem tokenizeF_ne_err :
    ∀ (fuel : Nat) (l : Lexer) (acc : List Token) (e : LexerError),
      tokenizeF fuel l acc ≠ .err e := by
  intro fuel
  induction fuel with
  | zero => intro l acc e; simp [tokenizeF]
  | succ n ih =>
    intro l acc e
    rcases hnt : l.nextToken with ⟨tok, oe, l2⟩
    simp only [tokenizeF, hnt]
    by_cases heof : tok.type = .EOFToken
    · simp [heof]
    · simp only [heof, if_neg, ite_false]
      match oe with
      | none => exact ih l2 (acc ++ [tok]) e
      | some e0 =>
        exact absurd (congrArg Token.type (nextToken_error_zero l tok e0 l2 hnt)) heof

/-- C1: the claim says a lexical error found by `NextToken` is returned by
`Tokenize` as its error result.  The code drops it: on the source `"&"`,
`NextToken` reports the `LexerError` `expected '&' after '&'`, yet
`Tokenize` returns the empty token list with a nil error, because the loop
tests `currToken.Type != EOFToken` before `err != nil` and the zero
`Token{}` of an error return has type `EOFToken`.  In fact no fuel, input
and accumulator can ever make the tokenize loop return an error. -/
theorem claim_C1_tokenize_swallows_lex_errors :
    (LexerNew "&").nextToken =
      (zeroToken, some ⟨"expected '&' after '&'", 1, 2⟩, ⟨[], 1, 2⟩) ∧
    Tokenize (LexerNew "&") = .toks [] ∧
    ∀ (fuel : Nat) (l : Lexer) (acc : List Token) (e : LexerError),
      tokenizeF fuel l acc ≠ .err e :=
  ⟨by rfl, by rfl, tokenizeF_ne_err⟩

/-- Folding string concatenation from a non-empty starting string. -/
theorem foldl_append_shift (l : List String) (a : String) :
    List.foldl (fun r s => r ++ s) a l = a ++ List.foldl (fun r s => r ++ s) "" l := by
  induction l generalizing a with
  | nil => simp
  | cons x xs ih => simp [List.foldl_cons, ih (a ++ x), ih x, String.append_assoc]

/-- The print tail is the join of the space-prefixed renderings. -/
theorem printArgsAux_eq_join (fuel : Nat) (heap : List (List Value)) :
    ∀ vs : List Value, printArgsAux fuel heap vs =
      String.join (vs.map (fun w => " " ++ renderValueF fuel heap w)) := by
  intro vs
  induction vs with
  | nil => simp [printArgsAux, String.join]
  | cons v rest ih =>
    simp only [printArgsAux, String.join, List.map_cons, List.foldl_cons, ih]
    rw [foldl_append_shift (List.map (fun w => " " ++ renderValueF fuel heap w) rest)
      ("" ++ (" " ++ renderValueF fuel heap v))]
    simp [String.append_assoc]

/-- C9: dividing two Numbers raises the runtime error `division by zero`
exactly when the right operand is zero, and otherwise yields their quotient
(no infinity or NaN value is ever produced: the zero test precedes the
division). -/
theorem claim_C9_division_by_zero :
    ∀ (fuel : Nat) (st : EvalState) (envI : Nat) (a b : ℚ),
      evalExpr (fuel + 1) st envI (.binary (.numberLit a) .DivideToken (.numberLit b)) =
        if b = 0 then .error (.rt "division by zero", st)
        else .ok (.number (a / b), st) := by
  intro fuel st envI a b
  by_cases hb : b = 0 <;> simp [evalExpr, evalBinaryOp, Value.vtype, hb]

/-- C10: the built-in native `print` with zero arguments returns the
runtime error `print expects at least 1 value` instead of printing an empty
line — also through a call of the bound `print` of the default environment —
and with one or more arguments appends them space-separated and
newline-terminated to the output, returning the zero value `void`. -/
theorem claim_C10_print_native :
    ∀ (fuel : Nat) (st : EvalState) (v : Value) (vs : List Value),
      callNative .print fuel [] st =
        .error (.rt "print expects at least 1 value", st) ∧
      callNative .print fuel (v :: vs) st =
        .ok (.void, { st with output := st.output ++
          (renderValueF fuel st.arrays v ++
            String.join (vs.map (fun w => " " ++ renderValueF fuel st.arrays w)) ++ "
") }) ∧
      evalExpr (fuel + 1) defaultState 0 (.functionCall "print" []) =
        .error (.rt "print expects at least 1 value", defaultState) := by
  intro fuel st v vs
  refine ⟨by simp [callNative], ?_, ?_⟩
  · simp [callNative, printArgsAux_eq_join]
  · simp [evalExpr, defaultState, envGetF, varsGet, evalExprList, callNative]

/-- C4: the claim says if/while conditions are coerced to Boolean by
truthiness.  The truthiness table the claim describes exists in the code
(`Value.AsBoolean`, the first five conjuncts) but is never called:
`IfStatement.Execute` and `WhileStatement.Execute` reject every non-Boolean
condition with a runtime error, so the number `1` and the empty string
or empty array as conditions error out instead of selecting a branch. -/
theorem claim_C4_conditions_require_boolean :
    (∀ (heap : List (List Value)) (q : ℚ), asBoolean heap (.number q) = decide (q ≠ 0)) ∧
    (∀ (heap : List (List Value)) (s : String), asBoolean heap (.str s) = decide (0 < s.length)) ∧
    (∀ (heap : List (List Value)) (ref : Nat),
      asBoolean heap (.array ref) = decide (0 < (heap.getD ref []).length)) ∧
    (∀ (heap : List (List Value)) (b : Bool), asBoolean heap (.boolean b) = b) ∧
    (∀ heap : List (List Value), asBoolean heap .void = false) ∧
    (∀ (fuel : Nat) (st : EvalState) (envI : Nat) (thn els : List Stmt),
      execStmt (fuel + 1) st envI (.ifStmt (.numberLit 1) thn els) =
        .error (.rt "condition must evaluate to boolean, got Number", st)) ∧
    (∀ (fuel : Nat) (st : EvalState) (envI : Nat) (thn els : List Stmt),
      execStmt (fuel + 1) st envI (.ifStmt (.stringLit "") thn els) =
        .error (.rt "condition must evaluate to boolean, got String", st)) ∧
    (∀ (fuel : Nat) (st : EvalState) (envI : Nat) (body : List Stmt),
      execStmt (fuel + 2) st envI (.whileStmt (.arrayLit []) body) =
        .error (.rt "condition must evaluate to boolean, got Array",
          { st with arrays := st.arrays ++ [[]] })) := by
  refine ⟨by intro heap q; rfl, by intro heap s; rfl, by intro heap ref; rfl,
    by intro heap b; rfl, by intro heap; rfl, ?_, ?_, ?_⟩
  · intro fuel st envI thn els
    simp [execStmt, evalExpr, Value.vtype, ValueType.goString]
  · intro fuel st envI thn els
    simp [execStmt, evalExpr, Value.vtype, ValueType.goString]
  · intro fuel st envI body
    simp [execStmt, evalExpr, evalExprList, Value.vtype, ValueType.goString]

set_option maxRecDepth 8000 in
/-- C2: the claim says `"let a := [1,2,3] a[1] = 9"` parses as a declaration
followed by an index-assignment statement.  It does not parse at all:
`parseStatement` calls `parseAssignStatement` only when the token after the
identifier is `=`, so `a[1]` falls through to a bare array-literal
expression statement and the parse fails at the orphaned `=` with
`unexpected token in primary expression: =` (the `ident[expr] = expr`
branch of `parseAssignStatement` is unreachable). -/
theorem claim_C2_index_assignment_is_a_parse_error :
    Tokenize (LexerNew "let a := [1,2,3] a[1] = 9") = .toks c2toks ∧
    Parser.Parse c2toks = .error (.parserError ⟨.AssignToken, "=", 24, 1⟩
      "unexpected token in primary expression: =") := by
  refine ⟨by rfl, ?_⟩
  simp [Parser.Parse, Parser.parseProgramLoop, Parser.parseStatement, Parser.parseDeclareStatement,
    Parser.parseLogicalExpression, Parser.parseLogicalTerm, Parser.parseLogicalUnary,
    Parser.parseLogicalFactor, Parser.parseComparison, Parser.parseExpression, Parser.parseTerm,
    Parser.parseUnary, Parser.parseFactor, Parser.parsePrimary, Parser.parseLogicalExpressionLoop,
    Parser.parseLogicalTermLoop, Parser.parseExpressionLoop, Parser.parseTermLoop,
    Parser.parseArrayLiteral, Parser.parseArrayElemsLoop, Parser.matchTok, Parser.peek,
    Parser.peekToken, Parser.mkErr, Parser.isComparisonOp, parseGoFloat, TokenType.goString, c2toks]

set_option maxRecDepth 8000 in
/-- C7: of the claim's three examples, `1 + 2 * 3` parses and evaluates to
the Number 7 and `-2 * -3` to 6, but `(1 + 2) * 3` is a parse error: the
leading `(` commits `parseLogicalFactor` to a logical-level parenthesized
expression, after which nothing consumes the `*` — even though the
repository's own spec.bnf derives the expression. -/
theorem claim_C7_operator_precedence :
    Tokenize (LexerNew "1 + 2 * 3") = .toks c7aToks ∧
    Parser.Parse c7aToks = .ok [.exprStmt c7aExpr] ∧
    evalExpr 10 initialState 0 c7aExpr = .ok (.number 7, initialState) ∧
    Tokenize (LexerNew "-2 * -3") = .toks c7bToks ∧
    Parser.Parse c7bToks = .ok [.exprStmt c7bExpr] ∧
    evalExpr 10 initialState 0 c7bExpr = .ok (.number 6, initialState) ∧
    Tokenize (LexerNew "(1 + 2) * 3") = .toks c7cToks ∧
    Parser.Parse c7cToks = .error (.parserError ⟨.MultiplyToken, "*", 10, 1⟩
      "unexpected token in primary expression: *") := by
  refine ⟨by rfl, ?_, ?_, by rfl, ?_, ?_, by rfl, ?_⟩
  · simp [Parser.Parse, Parser.parseProgramLoop, Parser.parseStatement, Parser.parseDeclareStatement,
    Parser.parseLogicalExpression, Parser.parseLogicalTerm, Parser.parseLogicalUnary,
    Parser.parseLogicalFactor, Parser.parseComparison, Parser.parseExpression, Parser.parseTerm,
    Parser.parseUnary, Parser.parseFactor, Parser.parsePrimary, Parser.parseLogicalExpressionLoop,
    Parser.parseLogicalTermLoop, Parser.parseExpressionLoop, Parser.parseTermLoop,
    Parser.parseArrayLiteral, Parser.parseArrayElemsLoop, Parser.matchTok, Parser.peek,
    Parser.peekToken, Parser.mkErr, Parser.isComparisonOp, parseGoFloat, TokenType.goString, c7aToks, c7aExpr]
  · norm_num [evalExpr, evalBinaryOp, evalUnaryOp, Value.vtype, c7aExpr]
  · simp [Parser.Parse, Parser.parseProgramLoop, Parser.parseStatement, Parser.parseDeclareStatement,
    Parser.parseLogicalExpression, Parser.parseLogicalTerm, Parser.parseLogicalUnary,
    Parser.parseLogicalFactor, Parser.parseComparison, Parser.parseExpression, Parser.parseTerm,
    Parser.parseUnary, Parser.parseFactor, Parser.parsePrimary, Parser.parseLogicalExpressionLoop,
    Parser.parseLogicalTermLoop, Parser.parseExpressionLoop, Parser.parseTermLoop,
    Parser.parseArrayLiteral, Parser.parseArrayElemsLoop, Parser.matchTok, Parser.peek,
    Parser.peekToken, Parser.mkErr, Parser.isComparisonOp, parseGoFloat, TokenType.goString, c7bToks, c7bExpr]
  · norm_num [evalExpr, evalBinaryOp, evalUnaryOp, Value.vtype, c7bExpr]
  · simp [Parser.Parse, Parser.parseProgramLoop, Parser.parseStatement, Parser.parseDeclareStatement,
    Parser.parseLogicalExpression, Parser.parseLogicalTerm, Parser.parseLogicalUnary,
    Parser.parseLogicalFactor, Parser.parseComparison, Parser.parseExpression, Parser.parseTerm,
    Parser.parseUnary, Parser.parseFactor, Parser.parsePrimary, Parser.parseLogicalExpressionLoop,
    Parser.parseLogicalTermLoop, Parser.parseExpressionLoop, Parser.parseTermLoop,
    Parser.parseArrayLiteral, Parser.parseArrayElemsLoop, Parser.matchTok, Parser.peek,
    Parser.peekToken, Parser.mkErr, Parser.isComparisonOp, parseGoFloat, TokenType.goString, c7cToks]

set_option maxRecDepth 2000 in
/-- C8 (amended): on every finite token sequence `Parse` terminates — the
parsing functions are total Lean functions, well-founded by consumed input —
and returns either a statement sequence or a single error, never a partial
list alongside an error, and equal runs give equal results. -/
theorem claim_C8_parse_total_deterministic :
    ∀ tks : List Token,
      ((∃ stmts, Parser.Parse tks = .ok stmts) ∨ (∃ e, Parser.Parse tks = .error e)) ∧
      ∀ r s : Except PError (List Stmt),
        Parser.Parse tks = r → Parser.Parse tks = s → r = s := by
  intro tks
  constructor
  · cases h : Parser.Parse tks with
    | ok stmts => exact .inl ⟨stmts, rfl⟩
    | error e => exact .inr ⟨e, rfl⟩
  · intro r s hr hs
    rw [← hr, ← hs]

/-- C8, the counterexample to "position-anchored": on the token sequence
`[NumberToken "x"]` (not producible by the lexer), `Parse` forwards the
`strconv.ParseFloat` failure as its error, which carries no token and no
position, unlike every `p.error(...)` result. -/
theorem claim_C8_counterexample_unanchored_error :
    Parser.Parse [⟨.NumberToken, "x", 0, 0⟩] = .error (.floatError "x") ∧
    ∀ (tok : Token) (msg : String),
      Parser.Parse [⟨.NumberToken, "x", 0, 0⟩] ≠ .error (.parserError tok msg) := by
  have h : Parser.Parse [⟨.NumberToken, "x", 0, 0⟩] = .error (.floatError "x") := by
    simp [Parser.Parse, Parser.parseProgramLoop, Parser.parseStatement, Parser.parseDeclareStatement,
    Parser.parseLogicalExpression, Parser.parseLogicalTerm, Parser.parseLogicalUnary,
    Parser.parseLogicalFactor, Parser.parseComparison, Parser.parseExpression, Parser.parseTerm,
    Parser.parseUnary, Parser.parseFactor, Parser.parsePrimary, Parser.parseLogicalExpressionLoop,
    Parser.parseLogicalTermLoop, Parser.parseExpressionLoop, Parser.parseTermLoop,
    Parser.parseArrayLiteral, Parser.parseArrayElemsLoop, Parser.matchTok, Parser.peek,
    Parser.peekToken, Parser.mkErr, Parser.isComparisonOp, parseGoFloat, TokenType.goString]
  exact ⟨h, fun tok msg hc => by rw [h] at hc; exact absurd (Except.error.inj hc) (by simp)⟩

/-- `Environment.Get` finds a binding exactly when some frame in the parent
chain binds the name. -/
theorem envGetF_isSome_iff :
    ∀ (gas : Nat) (frames : List Frame) (i : Nat) (name : String),
      (envGetF gas frames i name).isSome = (chainFindF gas frames i name).isSome := by
  intro gas
  induction gas with
  | zero => intro frames i name; simp [envGetF, chainFindF]
  | succ n ih =>
    intro frames i name
    simp only [envGetF, chainFindF]
    cases hf : frames[i]? with
    | none => simp
    | some fr =>
      cases hv : varsGet fr.vars name with
      | some v => simp [hv]
      | none =>
        cases hp : fr.parent with
        | none => simp [hv, hp]
        | some p => simp [hv, hp, ih]

/-- C3 (amended): executing a `let` declaration raises
`variable already declared` exactly when the name is bound anywhere in the
environment chain — the current frame or any enclosing frame —, because
`DeclarationStatement.Execute` tests `env.Get`, which walks the whole chain;
otherwise it evaluates the initializer and defines the name locally. -/
theorem claim_C3_redeclaration_checks_whole_chain :
    ∀ (fuel : Nat) (st : EvalState) (envI : Nat) (name : String) (e : Expr),
      ((chainFindF (envI + 1) st.frames envI name).isSome →
        execStmt (fuel + 1) st envI (.declaration name e) =
          .error (.rt ("variable already declared: " ++ name), st)) ∧
      (chainFindF (envI + 1) st.frames envI name = none →
        execStmt (fuel + 1) st envI (.declaration name e) =
          match evalExpr fuel st envI e with
          | .error err => .error err
          | .ok (v, st1) => .ok { st1 with frames := envDefine st1.frames envI name v }) := by
  intro fuel st envI name e
  constructor
  · intro h
    have h2 : (envGetF (envI + 1) st.frames envI name).isSome = true := by
      rw [envGetF_isSome_iff]; exact h
    obtain ⟨v, hv⟩ := Option.isSome_iff_exists.mp h2
    simp [execStmt, hv]
  · intro h
    have h2 : envGetF (envI + 1) st.frames envI name = none := by
      have hx := envGetF_isSome_iff (envI + 1) st.frames envI name
      rw [h] at hx
      simpa using hx
    simp [execStmt, h2]

set_option maxRecDepth 8000 in
/-- C3, the counterexample: the claim says
`let x := 1 if true { let x := 2 }` succeeds with block-local shadowing.  It
does not: the program tokenizes and parses fine, and then the inner
declaration errors with `variable already declared: x` (the outer binding is
found through the chain), so the program never succeeds. -/
theorem claim_C3_counterexample_shadowing_errors :
    Tokenize (LexerNew "let x := 1 if true { let x := 2 }") = .toks c3toks ∧
    Parser.Parse c3toks = .ok c3prog ∧
    runProgram 50 c3prog = .error (.rt "variable already declared: x", c3errState) ∧
    ∀ st : EvalState, runProgram 50 c3prog ≠ .ok st := by
  have hrun : runProgram 50 c3prog =
      .error (.rt "variable already declared: x", c3errState) := by rfl
  refine ⟨by rfl, ?_, hrun, ?_⟩
  · simp [Parser.Parse, Parser.parseProgramLoop, Parser.parseStatement, Parser.parseDeclareStatement,
    Parser.parseIfStatement, Parser.parseBlockLoop, Parser.parseLogicalExpression,
    Parser.parseLogicalTerm, Parser.parseLogicalUnary, Parser.parseLogicalFactor,
    Parser.parseComparison, Parser.parseExpression, Parser.parseTerm, Parser.parseUnary,
    Parser.parseFactor, Parser.parsePrimary, Parser.parseLogicalExpressionLoop,
    Parser.parseLogicalTermLoop, Parser.parseExpressionLoop, Parser.parseTermLoop,
    Parser.matchTok, Parser.peek, Parser.peekToken, Parser.mkErr, Parser.isComparisonOp,
    parseGoFloat, TokenType.goString, c3toks, c3prog]
  · intro st hc
    rw [hrun] at hc
    exact absurd hc (by simp)

/-- C3, witness: in a child frame whose root binds `y`, re-declaring `y`
errors. -/
theorem claim_C3_witness :
    execStmt (4 + 1) ⟨w5frames, [], ""⟩ 1 (.declaration "y" (.numberLit 2)) =
      .error (.rt "variable already declared: y", ⟨w5frames, [], ""⟩) :=
  (claim_C3_redeclaration_checks_whole_chain 4 ⟨w5frames, [], ""⟩ 1 "y" (.numberLit 2)).1
    (by rfl)

/-- What `Environment.Set` does on a well-formed store, walking with enough
gas: it mutates the nearest frame in the chain that binds the name, and when
none does, it inserts at the outermost frame of the chain (where the
recursion `env.parent.Set(...)` bottoms out). -/
theorem envSetF_characterization :
    ∀ (gas : Nat) (frames : List Frame) (i : Nat) (name : String) (v : Value),
      ChainWF frames → i < frames.length → i < gas →
      envSetF gas frames i name v =
        (match chainFindF gas frames i name with
         | some j => envDefine frames j name v
         | none => envDefine frames (chainRootF gas frames i) name v) := by
  intro gas
  induction gas with
  | zero => intro frames i name v hwf hlen hgas; omega
  | succ n ih =>
    intro frames i name v hwf hlen hgas
    have hf : frames[i]? = some frames[i] := List.getElem?_eq_getElem hlen
    simp only [envSetF, chainFindF, chainRootF, hf]
    cases hv : varsGet frames[i].vars name with
    | some w => simp [envDefine, hf]
    | none =>
      cases hp : frames[i].parent with
      | none => simp [envDefine, hf, hp]
      | some p =>
        have hpi : p < i := hwf i frames[i] hf p hp
        simp only [Option.isSome_none, Bool.false_eq_true, if_false]
        exact ih frames p name v hwf (by omega) (by omega)

/-- C5 (amended): `Set` walks outward from the frame it is invoked on until
a frame holding an existing binding is found and mutates that binding in
place; if no frame in the chain binds the name, `Set` inserts the binding
into the outermost (root) frame of the chain — not the frame it was invoked
on.  A function definition stores its Function value through exactly these
`Set` semantics. -/
theorem claim_C5_set_walks_outward :
    ∀ (frames : List Frame) (i : Nat) (name : String) (v : Value),
      ChainWF frames → i < frames.length →
      (envSetF (i + 1) frames i name v =
        match chainFindF (i + 1) frames i name with
        | some j => envDefine frames j name v
        | none => envDefine frames (chainRootF (i + 1) frames i) name v) ∧
      ∀ (fuel : Nat) (st : EvalState) (envI : Nat) (args : List String)
        (body : List Stmt),
        execStmt fuel st envI (.funcStmt name args body) =
          .ok { st with
            frames := envSetF (envI + 1) st.frames envI name (.function ⟨args, body⟩) } := by
  intro frames i name v hwf hlen
  refine ⟨envSetF_characterization (i + 1) frames i name v hwf hlen (by omega), ?_⟩
  intro fuel st envI args body
  simp [execStmt]

/-- C5, the counterexample to "inserts into the local frame": on a store
with an empty root and an empty child, `Set` invoked on the child inserts
into the root, which differs from `Define` on the child; likewise a function
definition executed in the child frame lands in the root when the name is
unbound. -/
theorem claim_C5_counterexample_unbound_set_inserts_at_root :
    envSetF 2 [⟨[], none⟩, ⟨[], some 0⟩] 1 "z" (.number 7) =
      [⟨[("z", .number 7)], none⟩, ⟨[], some 0⟩] ∧
    envSetF 2 [⟨[], none⟩, ⟨[], some 0⟩] 1 "z" (.number 7) ≠
      envDefine [⟨[], none⟩, ⟨[], some 0⟩] 1 "z" (.number 7) ∧
    execStmt 3 ⟨[⟨[], none⟩, ⟨[], some 0⟩], [], ""⟩ 1 (.funcStmt "g" [] []) =
      .ok ⟨[⟨[("g", .function ⟨[], []⟩)], none⟩, ⟨[], some 0⟩], [], ""⟩ := by
  refine ⟨by rfl, ?_, by rfl⟩
  intro h
  rw [show envSetF 2 [⟨[], none⟩, ⟨[], some 0⟩] 1 "z" (.number 7) =
      [⟨[("z", .number 7)], none⟩, ⟨[], some 0⟩] from rfl] at h
  rw [show envDefine [⟨[], none⟩, ⟨[], some 0⟩] 1 "z" (.number 7) =
      [⟨[], none⟩, ⟨[("z", .number 7)], some 0⟩] from rfl] at h
  simp at h

/-- C5, witness: on the concrete two-frame store whose root binds `y`,
`Set` invoked on the child mutates the root binding in place. -/
theorem claim_C5_witness :
    envSetF (1 + 1) w5frames 1 "y" (.number 9) =
      [⟨[("y", .number 9)], none⟩, ⟨[], some 0⟩] :=
  ((claim_C5_set_walks_outward w5frames 1 "y" (.number 9)
    (by
      intro j fr h p hp
      match j with
      | 0 => simp [w5frames] at h; rw [← h] at hp; simp at hp
      | 1 => simp [w5frames] at h; rw [← h] at hp; simp at hp; omega
      | j + 2 => simp [w5frames] at h)
    (by simp [w5frames])).1).trans (by rfl)


theorem callNative_ne_retSig :
    ∀ (nfn : NativeFn) (fuel : Nat) (args : List Value) (st : EvalState)
      (v : Value) (st' : EvalState),
      callNative nfn fuel args st ≠ .error (.retSig v, st') := by
  intro nfn fuel args st v st'
  cases nfn
  cases args <;> simp [callNative]

theorem no_return_escape :
    ∀ fuel : Nat,
      (∀ (st : EvalState) (envI : Nat) (e : Expr) (v : Value) (st' : EvalState),
        evalExpr fuel st envI e ≠ .error (.retSig v, st')) ∧
      (∀ (st : EvalState) (envI : Nat) (es : List Expr) (v : Value) (st' : EvalState),
        evalExprList fuel st envI es ≠ .error (.retSig v, st')) ∧
      (∀ (st : EvalState) (envI funcEnvI : Nat) (es : List Expr) (ns : List String)
        (v : Value) (st' : EvalState),
        bindArgs fuel st envI funcEnvI es ns ≠ .error (.retSig v, st')) ∧
      (∀ (st : EvalState) (k : Nat) (ss : List Stmt) (v : Value) (st' : EvalState),
        runBody fuel st k ss ≠ .error (.retSig v, st')) := by
  intro fuel
  induction fuel with
  | zero =>
    refine ⟨?_, ?_, ?_, ?_⟩
    · intro st envI e v st'
      cases e <;> simp only [evalExpr] <;> (try split) <;> simp
    · intro st envI es v st'
      cases es <;> simp [evalExprList]
    · intro st envI funcEnvI es ns v st'
      cases es with
      | nil => simp [bindArgs]
      | cons e es2 => cases ns <;> simp [bindArgs]
    · intro st k ss v st'
      cases ss <;> simp [runBody]
  | succ n ih =>
    obtain ⟨ihE, ihL, ihB, ihR⟩ := ih
    refine ⟨?_, ?_, ?_, ?_⟩
    · intro st envI e v st'
      cases e with
      | numberLit q => simp [evalExpr]
      | stringLit s => simp [evalExpr]
      | booleanLit b => simp [evalExpr]
      | arrayLit elems =>
        simp only [evalExpr]
        cases h : evalExprList n st envI elems with
        | error err =>
          intro hc
          injection hc with hc2
          exact ihL st envI elems v st' (hc2 ▸ h)
        | ok res =>
          obtain ⟨values, st1⟩ := res
          simp
      | identifier name =>
        simp only [evalExpr]
        split <;> simp
      | binary l op r =>
        simp only [evalExpr]
        cases h1 : evalExpr n st envI l with
        | error err =>
          intro hc
          injection hc with hc2
          exact ihE st envI l v st' (hc2 ▸ h1)
        | ok res1 =>
          obtain ⟨lv, st1⟩ := res1
          dsimp only
          cases h2 : evalExpr n st1 envI r with
          | error err =>
            intro hc
            injection hc with hc2
            exact ihE st1 envI r v st' (hc2 ▸ h2)
          | ok res2 =>
            obtain ⟨rv, st2⟩ := res2
            dsimp only
            split <;> simp
      | unary op r =>
        simp only [evalExpr]
        cases h1 : evalExpr n st envI r with
        | error err =>
          intro hc
          injection hc with hc2
          exact ihE st envI r v st' (hc2 ▸ h1)
        | ok res1 =>
          obtain ⟨rv, st1⟩ := res1
          dsimp only
          split <;> simp
      | postfixExpr l idx =>
        simp only [evalExpr]
        cases h1 : evalExpr n st envI l with
        | error err =>
          intro hc
          injection hc with hc2
          exact ihE st envI l v st' (hc2 ▸ h1)
        | ok res1 =>
          obtain ⟨lv, st1⟩ := res1
          dsimp only
          cases h2 : evalExpr n st1 envI idx with
          | error err =>
            intro hc
            injection hc with hc2
            exact ihE st1 envI idx v st' (hc2 ▸ h2)
          | ok res2 =>
            obtain ⟨iv, st2⟩ := res2
            dsimp only
            cases lv <;> simp
            cases iv <;> simp
            split <;> simp
      | functionCall name args =>
        simp only [evalExpr]
        cases hg : envGetF (envI + 1) st.frames envI name with
        | none => simp
        | some resolved =>
          cases resolved with
          | nativeFunction nfn =>
            dsimp only
            cases h1 : evalExprList n st envI args with
            | error err =>
              intro hc
              injection hc with hc2
              exact ihL st envI args v st' (hc2 ▸ h1)
            | ok res =>
              obtain ⟨argv, st1⟩ := res
              dsimp only
              exact callNative_ne_retSig nfn n argv st1 v st'
          | function funcVal =>
            dsimp only
            split
            · simp
            · split
              · simp
              · cases hb : bindArgs n { st with frames := st.frames ++ [⟨[], some envI⟩] }
                    envI st.frames.length args funcVal.argNames with
                | error err =>
                  intro hc
                  injection hc with hc2
                  exact ihB _ envI st.frames.length args funcVal.argNames v st' (hc2 ▸ hb)
                | ok st2 => exact ihR st2 st.frames.length funcVal.body v st'
          | void => simp
          | number q => simp
          | str s => simp
          | boolean b => simp
          | array ref => simp
    · intro st envI es v st'
      cases es with
      | nil => simp [evalExprList]
      | cons e rest =>
        simp only [evalExprList]
        cases h1 : evalExpr n st envI e with
        | error err =>
          intro hc
          injection hc with hc2
          exact ihE st envI e v st' (hc2 ▸ h1)
        | ok res =>
          obtain ⟨w, st1⟩ := res
          dsimp only
          cases h2 : evalExprList n st1 envI rest with
          | error err =>
            intro hc
            injection hc with hc2
            exact ihL st1 envI rest v st' (hc2 ▸ h2)
          | ok res2 =>
            obtain ⟨vs, st2⟩ := res2
            simp
    · intro st envI funcEnvI es ns v st'
      cases es with
      | nil => simp [bindArgs]
      | cons e es2 =>
        cases ns with
        | nil => simp [bindArgs]
        | cons nm ns2 =>
          simp only [bindArgs]
          cases h1 : evalExpr n st envI e with
          | error err =>
            intro hc
            injection hc with hc2
            exact ihE st envI e v st' (hc2 ▸ h1)
          | ok res =>
            obtain ⟨w, st1⟩ := res
            dsimp only
            exact ihB _ envI funcEnvI es2 ns2 v st'
    · intro st k ss v st'
      cases ss with
      | nil => simp [runBody]
      | cons s rest =>
        simp only [runBody]
        cases hs : execStmt n st k s with
        | error err =>
          match err with
          | (.retSig w, stw) => simp
          | (.rt m, stw) => simp
          | (.fuelOut, stw) => simp
        | ok st2 => exact ihR st2 k rest v st'

/-- C6: a `return` statement raises a return signal through the error channel;
`runBody` (the function-call boundary) catches it, skips the remaining
statements of the body, and makes the returned value the call's result;
a body with no statements left yields Void; the signal propagates unchanged
out of nested blocks such as an `if` branch; and evaluating any expression —
hence any completed function call — can never surface the signal past the
call boundary. -/
theorem claim_C6_return_signal_at_call_boundary :
    ∀ (fuel : Nat) (st : EvalState) (k : Nat) (s : Stmt) (rest : List Stmt)
      (v : Value) (st' : EvalState),
      (runBody fuel st k [] = .ok (.void, st)) ∧
      (execStmt fuel st k s = .error (.retSig v, st') →
        runBody (fuel + 1) st k (s :: rest) = .ok (v, st')) ∧
      (∀ (cond : Expr) (thn els : List Stmt) (b : Bool),
        evalExpr fuel st k cond = .ok (.boolean b, st) →
        execStmts fuel ({ st with frames := st.frames ++ [⟨[], some k⟩] })
            st.frames.length (if b then thn else els) = .error (.retSig v, st') →
        execStmt (fuel + 1) st k (.ifStmt cond thn els) = .error (.retSig v, st')) ∧
      (∀ (e : Expr) (w : Value) (stw : EvalState),
        evalExpr fuel st k e ≠ .error (.retSig w, stw)) := by
  intro fuel st k s rest v st'
  refine ⟨by cases fuel <;> simp [runBody], ?_, ?_, ?_⟩
  · intro h
    simp [runBody, h]
  · intro cond thn els b h1 h2
    simp [execStmt, h1, h2]
  · intro e w stw
    exact (no_return_escape fuel).1 st k e w stw

theorem claim_C6_witness :
    runBody (5 + 1) initialState 0
      [.returnStmt (some (.numberLit 5)), .exprStmt (.identifier "unreachable")] =
      .ok (.number 5, initialState) :=
  (claim_C6_return_signal_at_call_boundary 5 initialState 0
    (.returnStmt (some (.numberLit 5))) [.exprStmt (.identifier "unreachable")]
    (.number 5) initialState).2.1 (by rfl)

end TinyLang
